import Mathlib

/-!
Verification of the lifecycle engine of the purple repository
(`rpc/lifecycle/blocked_assignments.py` and `rpc/lifecycle/notifications.py`),
shallowly embedded over an explicit relational-store state.

The relational store (Django ORM) is modelled by explicit lists of rows.
Machine timestamps are `Nat` (seconds).  Fallible code (raised exceptions)
is modelled with `Except String`.  Referential integrity of non-nullable
foreign keys (Django `on_delete=PROTECT`) is assumed: a foreign-key lookup
that finds no row is treated as excluded where the ORM could not in fact
dangle.
-/

namespace Purple

/-- Assignment states (`_AssignmentState` in `rpc/models.py`). -/
inductive AState where
  | assigned
  | inProgress
  | done
  | withdrawn
  | closedForHold
deriving DecidableEq

/-- Embeds `AssignmentQuerySet.active`: exclude `ASSIGNMENT_INACTIVE_STATES`
(`done`, `withdrawn`, `closed_for_hold`), `rpc/models.py`. -/
def AState.isActive : AState → Bool
  | .done => false
  | .withdrawn => false
  | .closedForHold => false
  | _ => true

/-- One `Assignment` row (`rpc/models.py`).  `person` is nullable.
`histDates` are the `history_date` timestamps of the audit entries that
`simple_history` keeps for the row (one appended per save). -/
structure Assignment where
  id : Nat
  rfcId : Nat
  person : Option Nat
  roleSlug : String
  state : AState
  comment : String
  histDates : List Nat
deriving DecidableEq

/-- One `RpcRelatedDocument` row.  Exactly one of `target_document` /
`target_rfctobe` is set; `targetRfcId = none` models a relationship whose
target is a datatracker `Document` rather than an `RfcToBe`. -/
structure RelatedDoc where
  sourceId : Nat
  relationshipSlug : String
  targetRfcId : Option Nat
deriving DecidableEq

/-- One `ActionHolder` row targeting an `RfcToBe`
(`rfc.actionholder_set`); active iff `completed` is null. -/
structure ActionHolder where
  targetRfcId : Nat
  completed : Option Nat
deriving DecidableEq

/-- One `FinalApproval` row; active iff `approved` is null. -/
structure FinalApproval where
  rfcId : Nat
  approved : Option Nat
deriving DecidableEq

/-- One `RfcToBeBlockingReason` row. -/
structure BlockingRec where
  rfcId : Nat
  reasonSlug : String
  sinceWhen : Nat
  resolved : Option Nat
deriving DecidableEq

/-- One `RfcToBe` row, with the per-document gating inputs.

`labels` are the slugs of the labels attached to the document.

Modelled from the spec: `pendingSlugs` and `incompleteSlugs` are the role
slugs produced for this document by the external Activity provider
(`rpc/lifecycle/activities.py` is not part of the sources; the spec
treats `pending_activities` / `incomplete_activities` as an external
collaborator returning a set of roles per document, §6).  The wrappers
`RfcToBe.pending_activities` / `RfcToBe.incomplete_activities` in
`rpc/models.py` intersect that output with the `RpcRole` catalog, which
is what `rolePendingExists` / `roleIncompleteFor` below reproduce. -/
structure Rfc where
  id : Nat
  dispositionSlug : String
  labels : List String
  pendingSlugs : List String
  incompleteSlugs : List String
deriving DecidableEq

/-- The relational-store state seen by `rpc/lifecycle/blocked_assignments.py`. -/
structure DB where
  rfcs : List Rfc
  assignments : List Assignment
  relatedDocs : List RelatedDoc
  actionHolders : List ActionHolder
  finalApprovals : List FinalApproval
  blockingRecs : List BlockingRec
  /-- slugs of the `BlockingReason` catalog rows -/
  reasonSlugs : List String
  /-- slugs of the `RpcRole` catalog rows -/
  roleSlugs : List String
  /-- next assignment primary key -/
  nextId : Nat
  /-- value of `timezone.now()` -/
  now : Nat
deriving DecidableEq

-- `BlockingReason` slug constants (`rpc/models.py`).
namespace BlockingReason

def ACTION_HOLDER_ACTIVE : String := "actionholder_active"

def LABEL_STREAM_HOLD : String := "label_stream_hold"

def LABEL_EXTREF_HOLD : String := "label_extref_hold"

def LABEL_AUTHOR_INPUT_REQUIRED : String := "label_author_input_required"

def LABEL_IANA_HOLD : String := "label_iana_hold"

def REFERENCE_NOT_RECEIVED : String := "ref_not_received"

def REFERENCE_NOT_RECEIVED_2G : String := "ref_not_received_2g"

def REFERENCE_NOT_RECEIVED_3G : String := "ref_not_received_3g"

def REFQUEUE_FIRST_EDIT_INCOMPLETE : String := "refqueue_first_edit_incomplete"

def REFQUEUE_SECOND_EDIT_INCOMPLETE : String := "refqueue_second_edit_incomplete"

def REFQUEUE_PUBLISH_INCOMPLETE : String := "refqueue_publish_incomplete"

def FINAL_APPROVAL_PENDING : String := "final_approval_pending"

def TOOLS_ISSUE : String := "tools_issue"

end BlockingReason

-- `DocRelationshipName` slug constants (`rpc/models.py`).
namespace DocRelationshipName

def NOT_RECEIVED_RELATIONSHIP_SLUG : String := "not-received"

def NOT_RECEIVED_2G_RELATIONSHIP_SLUG : String := "not-received-2g"

def NOT_RECEIVED_3G_RELATIONSHIP_SLUG : String := "not-received-3g"

def NOT_RECEIVED_RELATIONSHIP_SLUGS : List String :=
  [NOT_RECEIVED_RELATIONSHIP_SLUG,
   NOT_RECEIVED_2G_RELATIONSHIP_SLUG,
   NOT_RECEIVED_3G_RELATIONSHIP_SLUG]

end DocRelationshipName

/-- Embeds `RfcToBe.objects.get(pk=...)`. -/
def DB.findRfc (db : DB) (rid : Nat) : Option Rfc :=
  db.rfcs.find? (fun r => r.id == rid)

/-- Python set insertion (`reasons.add(x)`): append only if absent. -/
def setInsert {α : Type} [BEq α] (l : List α) (x : α) : List α :=
  if l.contains x then l else l ++ [x]

/-- Embeds `if qs.exists(): reasons.add(x)`. -/
def addIf (b : Bool) (l : List String) (x : String) : List String :=
  if b then setInsert l x else l

/-- Embeds `rfc.labels.filter(slug=s).exists()`. -/
def hasLabel (rfc : Rfc) (s : String) : Bool :=
  rfc.labels.contains s

/-- Embeds `rfc.labels.filter(slug__in=slugs).exists()`. -/
def hasAnyLabel (rfc : Rfc) (slugs : List String) : Bool :=
  slugs.any (fun s => rfc.labels.contains s)

/-- Embeds `rfc.actionholder_set.active().exists()`. -/
def hasActiveActionHolder (db : DB) (rid : Nat) : Bool :=
  db.actionHolders.any (fun h => h.targetRfcId == rid && h.completed.isNone)

/-- Embeds `rfc.finalapproval_set.active().exists()`. -/
def hasActiveFinalApproval (db : DB) (rid : Nat) : Bool :=
  db.finalApprovals.any (fun f => f.rfcId == rid && f.approved.isNone)

/-- Embeds `rfc.rpcrelateddocument_set.filter(relationship__slug=s).exists()`. -/
def hasRel (db : DB) (rid : Nat) (s : String) : Bool :=
  db.relatedDocs.any (fun d => d.sourceId == rid && d.relationshipSlug == s)

/-- Embeds `rfc.rpcrelateddocument_set.filter(relationship__slug__in=slugs).exists()`. -/
def hasRelIn (db : DB) (rid : Nat) (slugs : List String) : Bool :=
  db.relatedDocs.any (fun d => d.sourceId == rid && slugs.contains d.relationshipSlug)

/-- Embeds `rfc.rpcrelateddocument_set.filter(relationship="refqueue")`. -/
def refqueueRefs (db : DB) (rid : Nat) : List RelatedDoc :=
  db.relatedDocs.filter (fun d => d.sourceId == rid && d.relationshipSlug == "refqueue")

/-- Dereference `ref.target_rfctobe`; the source raises (`AttributeError` /
`DoesNotExist`) when the target is not a stored `RfcToBe`. -/
def targetRfc (db : DB) (d : RelatedDoc) : Except String Rfc :=
  match d.targetRfcId with
  | none => .error "AttributeError: relationship target is not an RfcToBe"
  | some tid =>
    match db.findRfc tid with
    | none => .error "RfcToBe.DoesNotExist"
    | some r => .ok r

/-- Embeds `rfc.incomplete_activities().filter(slug=s).exists()`
(`RfcToBe.incomplete_activities` filters the `RpcRole` catalog by the
output of the Activity provider). -/
def roleIncompleteFor (db : DB) (r : Rfc) (s : String) : Bool :=
  db.roleSlugs.contains s && r.incompleteSlugs.contains s

/-- Embeds `rfc.pending_activities().filter(slug__in=slugs).exists()`. -/
def rolePendingExists (db : DB) (r : Rfc) (slugs : List String) : Bool :=
  db.roleSlugs.any (fun s => r.pendingSlugs.contains s && slugs.contains s)

/-- Embeds `_is_active_or_pending_assignment` (`blocked_assignments.py`). -/
def is_active_or_pending_assignment (db : DB) (rfc : Rfc) (slugs : List String) : Bool :=
  (db.assignments.any (fun a =>
    a.rfcId == rfc.id && slugs.contains a.roleSlug && a.state.isActive))
  || rolePendingExists db rfc slugs

/-- Embeds the check `publisher_qs.active() | publisher_qs.filter(state=DONE)`
existence check from gate 5. -/
def publisherDoneOrActive (db : DB) (tid : Nat) : Bool :=
  db.assignments.any (fun a =>
    a.rfcId == tid && a.roleSlug == "publisher"
      && (a.state.isActive || a.state == AState.done))

open BlockingReason DocRelationshipName in
/-- Embeds `get_block_reasons` (`blocked_assignments.py`): the five-gate cascade.
The Python `set` is modelled as a duplicate-free list built with `setInsert`;
gates 3-5 dereference refqueue targets and may raise. -/
def get_block_reasons (db : DB) (rfc : Rfc) : Except String (List String) :=
  -- Gate 1: Blocks formatting / reference checks
  if is_active_or_pending_assignment db rfc ["ref_checker", "formatting"] then
    let reasons := addIf (hasActiveActionHolder db rfc.id) [] ACTION_HOLDER_ACTIVE
    let reasons := addIf (hasLabel rfc "Stream Hold") reasons LABEL_STREAM_HOLD
    let reasons := addIf (hasLabel rfc "ExtRef Hold") reasons LABEL_EXTREF_HOLD
    let reasons := addIf (hasLabel rfc "Author Input Required") reasons
      LABEL_AUTHOR_INPUT_REQUIRED
    if hasRelIn db rfc.id NOT_RECEIVED_RELATIONSHIP_SLUGS then
      if hasRel db rfc.id NOT_RECEIVED_RELATIONSHIP_SLUG then
        .ok (setInsert reasons REFERENCE_NOT_RECEIVED)
      else if hasRel db rfc.id NOT_RECEIVED_2G_RELATIONSHIP_SLUG then
        -- the source returns early here; behaviourally the same as falling through
        .ok (setInsert reasons REFERENCE_NOT_RECEIVED_2G)
      else if hasRel db rfc.id NOT_RECEIVED_3G_RELATIONSHIP_SLUG then
        .ok (setInsert reasons REFERENCE_NOT_RECEIVED_3G)
      else
        .ok reasons
    else
      .ok reasons
  -- Gate 2: Blocks first edit
  else if is_active_or_pending_assignment db rfc ["first_editor"] then
    let reasons := addIf (hasActiveActionHolder db rfc.id) [] ACTION_HOLDER_ACTIVE
    let reasons :=
      if hasAnyLabel rfc ["Stream Hold", "Author Input Required"] then
        let reasons := addIf (hasAnyLabel rfc ["Stream Hold"]) reasons LABEL_STREAM_HOLD
        addIf (hasAnyLabel rfc ["Author Input Required"]) reasons
          LABEL_AUTHOR_INPUT_REQUIRED
      else reasons
    .ok reasons
  -- Gate 3: Blocks second edit
  else if is_active_or_pending_assignment db rfc ["second_editor"] then
    let reasons := addIf (hasActiveActionHolder db rfc.id) [] ACTION_HOLDER_ACTIVE
    let reasons :=
      if hasAnyLabel rfc ["Stream Hold", "IANA Hold"] then
        let reasons := addIf (hasAnyLabel rfc ["Stream Hold"]) reasons LABEL_STREAM_HOLD
        addIf (hasAnyLabel rfc ["IANA Hold"]) reasons LABEL_IANA_HOLD
      else reasons
    (refqueueRefs db rfc.id).foldlM (fun acc d => do
      let t ← targetRfc db d
      pure (addIf (roleIncompleteFor db t "first_editor") acc
        REFQUEUE_FIRST_EDIT_INCOMPLETE)) reasons
  -- Gate 4: Blocks final review
  else if is_active_or_pending_assignment db rfc ["final_review_editor"] then do
    let reasons ← (refqueueRefs db rfc.id).foldlM (fun acc d => do
      let t ← targetRfc db d
      pure (addIf (roleIncompleteFor db t "second_editor") acc
        REFQUEUE_SECOND_EDIT_INCOMPLETE)) []
    let reasons := addIf (hasAnyLabel rfc ["Stream Hold"]) reasons LABEL_STREAM_HOLD
    let reasons := addIf (hasActiveActionHolder db rfc.id) reasons ACTION_HOLDER_ACTIVE
    .ok reasons
  -- Gate 5: Blocks publishing
  else if is_active_or_pending_assignment db rfc ["publisher"] then do
    let reasons := addIf (hasAnyLabel rfc ["Stream Hold"]) [] LABEL_STREAM_HOLD
    let reasons := addIf (hasAnyLabel rfc ["IANA Hold"]) reasons LABEL_IANA_HOLD
    let reasons := addIf (hasAnyLabel rfc ["Tools Issue"]) reasons TOOLS_ISSUE
    let reasons ← (refqueueRefs db rfc.id).foldlM (fun acc d => do
      let t ← targetRfc db d
      pure (addIf (!publisherDoneOrActive db t.id) acc
        REFQUEUE_PUBLISH_INCOMPLETE)) reasons
    let reasons := addIf (hasActiveFinalApproval db rfc.id) reasons FINAL_APPROVAL_PENDING
    .ok reasons
  -- No active assignments in any gate - return empty set
  else
    .ok []

/-- Embeds `_has_active_blocked_assignment` (`blocked_assignments.py`). -/
def has_active_blocked_assignment (db : DB) (rid : Nat) : Bool :=
  db.assignments.any (fun a =>
    a.rfcId == rid && a.roleSlug == "blocked" && a.state.isActive)

/-- Embeds `assignment.save(...)`: apply `f` to the row with primary key
`aid` and append a history entry dated `db.now` (django-simple-history
records every save). -/
def DB.updateAssignment (db : DB) (aid : Nat) (f : Assignment → Assignment) : DB :=
  { db with
    assignments := db.assignments.map (fun a =>
      if a.id == aid then
        let a1 := f a
        { a1 with histDates := a1.histDates ++ [db.now] }
      else a) }

/-- Embeds `Assignment.objects.create(...)`: insert a fresh row (with its
first history entry) under the next primary key. -/
def DB.createAssignment (db : DB) (rid : Nat) (role : String) (person : Option Nat)
    (st : AState) (comment : String) : DB :=
  { db with
    assignments := db.assignments ++
      [{ id := db.nextId, rfcId := rid, person := person, roleSlug := role,
         state := st, comment := comment, histDates := [db.now] }],
    nextId := db.nextId + 1 }

/-- Embeds `Assignment.objects.update_or_create(rfc_to_be=.., role=.., person=..,
state=.., defaults={comment})`: update the comment of the row matching all
four lookup fields, or create a new row with them. -/
def DB.updateOrCreateAssignment (db : DB) (rid : Nat) (role : String)
    (person : Option Nat) (st : AState) (comment : String) : DB :=
  match db.assignments.find? (fun a =>
      a.rfcId == rid && a.roleSlug == role && a.person == person && a.state == st) with
  | some a => db.updateAssignment a.id (fun x => { x with comment := comment })
  | none => db.createAssignment rid role person st comment

/-- Comment text built by `_create_blocked_assignments`
(`", ".join(reasons)` over the reason set). -/
def blockedComment (reasons : List String) : String :=
  "blocked because of blocking condition(s): " ++ String.intercalate ", " reasons ++ "; "

/-- Embeds the reason-storing loop of `_create_blocked_assignments`: one
`RfcToBeBlockingReason` row per reason slug, raising `NotFound` for a slug
absent from the `BlockingReason` catalog. -/
def storeBlockingReasons (db : DB) (rid : Nat) (reasons : List String) :
    Except String DB :=
  reasons.foldlM (fun db slug =>
    if db.reasonSlugs.contains slug then
      Except.ok { db with
        blockingRecs := db.blockingRecs ++
          [{ rfcId := rid, reasonSlug := slug, sinceWhen := db.now, resolved := none }] }
    else
      Except.error ("NotFound: Invalid blocking reason slug: " ++ slug)) db

/-- Embeds `_create_blocked_assignments`: close every active non-blocked
assignment (`closed_for_hold`), create-or-update a `blocked` `in_progress`
assignment per closed person (or one ownerless `blocked` assignment when
none were active), then store the blocking reasons.  Any failure (missing
`blocked` role, unknown reason slug) raises `NotFound`. -/
def create_blocked_assignments (db : DB) (rfc : Rfc) (reasons : List String) :
    Except String DB :=
  if db.roleSlugs.contains "blocked" then
    let active_assignment_qs := db.assignments.filter (fun a =>
      a.rfcId == rfc.id && !(a.roleSlug == "blocked") && a.state.isActive)
    let db1 :=
      if !active_assignment_qs.isEmpty then
        active_assignment_qs.foldl (fun db a =>
          let db := db.updateAssignment a.id (fun x =>
            { x with state := AState.closedForHold,
                     comment := "Closed due to blocked state" })
          db.updateOrCreateAssignment rfc.id "blocked" a.person AState.inProgress
            (blockedComment reasons)) db
      else
        db.createAssignment rfc.id "blocked" none AState.inProgress
          (blockedComment reasons)
    storeBlockingReasons db1 rfc.id reasons
  else
    Except.error "NotFound: Failed to create blocked assignment for rfc"

/-- Insertion step for sorting by descending primary key. -/
def insertDescById (a : Assignment) : List Assignment → List Assignment
  | [] => [a]
  | b :: l => if b.id ≤ a.id then a :: b :: l else b :: insertDescById a l

/-- Embeds `order_by("-pk")`. -/
def sortDescById (l : List Assignment) : List Assignment :=
  l.foldr insertDescById []

/-- Embeds `assignment.history.order_by("-history_date").first()`, keeping
only the date: the most recent history timestamp, if any. -/
def latestHistDate (a : Assignment) : Option Nat :=
  a.histDates.foldl (fun acc d =>
    match acc with
    | none => some d
    | some m => if d > m then some d else some m) none

/-- One comparison step of the argmax scan: keep the candidate with the
strictly larger latest history date (first encountered wins ties; rows
without history are skipped). -/
def pickLatest (acc : Option (Assignment × Nat)) (x : Assignment) :
    Option (Assignment × Nat) :=
  match latestHistDate x with
  | none => acc
  | some d =>
    match acc with
    | none => some (x, d)
    | some p => if d > p.2 then some (x, d) else acc

/-- Embeds the argmax scan of `_close_blocked_assignments`: among the
`closed_for_hold` assignments of this document for `person`, the one whose
latest history entry is most recent. -/
def latest_closed_for_hold (db : DB) (rid : Nat) (person : Option Nat) :
    Option Assignment :=
  let closed_for_hold_qs := db.assignments.filter (fun x =>
    x.rfcId == rid && x.state == AState.closedForHold && x.person == person)
  (closed_for_hold_qs.foldl pickLatest none).map Prod.fst

/-- Loop body of `_close_blocked_assignments` for one active `blocked`
assignment `a`: set it to `done`, then re-create the most recently held `closed_for_hold` assignment of the matching person in state `assigned`. -/
def closeStep (rid : Nat) (db : DB) (a : Assignment) : DB :=
  let db := db.updateAssignment a.id (fun x => { x with state := AState.done })
  match latest_closed_for_hold db rid a.person with
  | some latest_assignment =>
    db.updateOrCreateAssignment rid latest_assignment.roleSlug
      latest_assignment.person AState.assigned
      "Re-created after blocked state cleared"
  | none => db

/-- Embeds the blocked queryset of `_close_blocked_assignments`:
`rfc.assignment_set.filter(role__slug="blocked").active().order_by("-pk")`. -/
def blockedQs (db : DB) (rid : Nat) : List Assignment :=
  sortDescById (db.assignments.filter (fun a =>
    a.rfcId == rid && a.roleSlug == "blocked" && a.state.isActive))

/-- Embeds `_close_blocked_assignments`: set each active `blocked`
assignment (descending pk) to `done`, re-create the most recently held
`closed_for_hold` assignment of the matching person in state `assigned`,
then resolve every unresolved blocking-reason row of the document.
Returns whether there was anything to close. -/
def close_blocked_assignments (db : DB) (rfc : Rfc) : DB × Bool :=
  let blocked_qs := blockedQs db rfc.id
  if blocked_qs.isEmpty then
    (db, false)
  else
    let db := blocked_qs.foldl (closeStep rfc.id) db
    ({ db with
       blockingRecs := db.blockingRecs.map (fun r =>
         if r.rfcId == rfc.id && r.resolved.isNone then
           { r with resolved := some db.now }
         else r) }, true)

/-- Embeds `apply_blocked_assignment_for_rfc`: inside a row-locked
transaction, compute the reasons and diff against the stored blocked state;
on any raised error the transaction rolls back (the store is unchanged) and
a `RuntimeError` propagates. -/
def apply_blocked_assignment_for_rfc (db : DB) (rid : Nat) :
    Except String (DB × Bool) :=
  match db.findRfc rid with
  | none => Except.error "RuntimeError: Failed to apply blocked assignment"
  | some locked =>
    match get_block_reasons db locked with
    | Except.error _ => Except.error "RuntimeError: Failed to apply blocked assignment"
    | Except.ok block_reasons =>
      let blocked_now := !block_reasons.isEmpty
      let blocked_before := has_active_blocked_assignment db rid
      if blocked_now && !blocked_before then
        match create_blocked_assignments db locked block_reasons with
        | Except.error _ =>
          Except.error "RuntimeError: Failed to apply blocked assignment"
        | Except.ok db1 => Except.ok (db1, true)
      else if !blocked_now && blocked_before then
        Except.ok ((close_blocked_assignments db locked).1, true)
      else
        Except.ok (db, false)

/-- Embeds `RfcToBe.objects.filter(disposition_id="in_progress")` as the
list of matching primary keys, in row order. -/
def in_progress_ids (db : DB) : List Nat :=
  (db.rfcs.filter (fun r => r.dispositionSlug == "in_progress")).map Rfc.id

/-- Loop body of `update_blocked_assignments_for_in_progress_rfcs`: each
per-document transaction commits on success; the first raised error
propagates out of the loop, leaving the remaining documents unprocessed. -/
def update_blocked_go : List Nat → DB → DB × Option String
  | [], db => (db, none)
  | rid :: rest, db =>
    match apply_blocked_assignment_for_rfc db rid with
    | Except.ok p => update_blocked_go rest p.1
    | Except.error e => (db, some e)

/-- Embeds `update_blocked_assignments_for_in_progress_rfcs`. -/
def update_blocked_assignments_for_in_progress_rfcs (db : DB) : DB × Option String :=
  update_blocked_go (in_progress_ids db) db

/-! Spec-side rendering of the gate evaluator (spec §4.1), to be compared
with the source-side `get_block_reasons`.  Each gate is written as the
spec words it: a checklist of condition/reason pairs, with the gate-1
not-received tiers as a first-tier-wins precedence chain and the
refqueue checks of gates 3-5 as one reason added when the target of any
target fails the check. -/

open BlockingReason DocRelationshipName in
/-- Spec gate 1 (`{ref_checker, formatting}`): action-holder active; label
Stream Hold; label ExtRef Hold; label Author-Input-Required; then the
three escalating not-received tiers, first tier found short-circuiting. -/
def specGate1 (db : DB) (rfc : Rfc) : List String :=
  (([(hasActiveActionHolder db rfc.id, ACTION_HOLDER_ACTIVE),
     (hasLabel rfc "Stream Hold", LABEL_STREAM_HOLD),
     (hasLabel rfc "ExtRef Hold", LABEL_EXTREF_HOLD),
     (hasLabel rfc "Author Input Required", LABEL_AUTHOR_INPUT_REQUIRED)].filter
       Prod.fst).map Prod.snd)
  ++ (if hasRel db rfc.id NOT_RECEIVED_RELATIONSHIP_SLUG then
        [REFERENCE_NOT_RECEIVED]
      else if hasRel db rfc.id NOT_RECEIVED_2G_RELATIONSHIP_SLUG then
        [REFERENCE_NOT_RECEIVED_2G]
      else if hasRel db rfc.id NOT_RECEIVED_3G_RELATIONSHIP_SLUG then
        [REFERENCE_NOT_RECEIVED_3G]
      else [])

open BlockingReason in
/-- Spec gate 2 (`{first_editor}`): action-holder active; label Stream Hold
and/or Author-Input-Required (both may apply). -/
def specGate2 (db : DB) (rfc : Rfc) : List String :=
  ([(hasActiveActionHolder db rfc.id, ACTION_HOLDER_ACTIVE),
    (hasLabel rfc "Stream Hold", LABEL_STREAM_HOLD),
    (hasLabel rfc "Author Input Required", LABEL_AUTHOR_INPUT_REQUIRED)].filter
      Prod.fst).map Prod.snd

/-- Dereference all refqueue targets in order (spec side), raising at the
first reference whose target is not a stored document-to-be, as the source
loops would. -/
def targetsOf (db : DB) : List RelatedDoc → Except String (List Rfc)
  | [] => Except.ok []
  | d :: rest => do
    let t ← targetRfc db d
    let ts ← targetsOf db rest
    pure (t :: ts)

open BlockingReason in
/-- Spec gate 3 (`{second_editor}`): action-holder active; labels Stream
Hold / IANA Hold; refqueue-first-edit-incomplete once if any refqueue
target of a refqueue reference has an incomplete `first_editor` activity. -/
def specGate3 (db : DB) (rfc : Rfc) : Except String (List String) := do
  let targets ← targetsOf db (refqueueRefs db rfc.id)
  pure (([(hasActiveActionHolder db rfc.id, ACTION_HOLDER_ACTIVE),
          (hasLabel rfc "Stream Hold", LABEL_STREAM_HOLD),
          (hasLabel rfc "IANA Hold", LABEL_IANA_HOLD),
          (targets.any (fun t => roleIncompleteFor db t "first_editor"),
            REFQUEUE_FIRST_EDIT_INCOMPLETE)].filter Prod.fst).map Prod.snd)

open BlockingReason in
/-- Spec gate 4 (`{final_review_editor}`): refqueue-second-edit-incomplete
once if any refqueue target of a refqueue reference has an incomplete
`second_editor` activity; label Stream Hold; action-holder active. -/
def specGate4 (db : DB) (rfc : Rfc) : Except String (List String) := do
  let targets ← targetsOf db (refqueueRefs db rfc.id)
  pure (([(targets.any (fun t => roleIncompleteFor db t "second_editor"),
            REFQUEUE_SECOND_EDIT_INCOMPLETE),
          (hasLabel rfc "Stream Hold", LABEL_STREAM_HOLD),
          (hasActiveActionHolder db rfc.id, ACTION_HOLDER_ACTIVE)].filter
            Prod.fst).map Prod.snd)

open BlockingReason in
/-- Spec gate 5 (`{publisher}`): labels Stream Hold / IANA Hold / Tools
Issue; refqueue-publish-incomplete once if any refqueue target of a refqueue
reference has no active-or-done publisher assignment; final-approval-pending for any
active final approval. -/
def specGate5 (db : DB) (rfc : Rfc) : Except String (List String) := do
  let targets ← targetsOf db (refqueueRefs db rfc.id)
  pure (([(hasLabel rfc "Stream Hold", LABEL_STREAM_HOLD),
          (hasLabel rfc "IANA Hold", LABEL_IANA_HOLD),
          (hasLabel rfc "Tools Issue", TOOLS_ISSUE),
          (targets.any (fun t => !publisherDoneOrActive db t.id),
            REFQUEUE_PUBLISH_INCOMPLETE),
          (hasActiveFinalApproval db rfc.id, FINAL_APPROVAL_PENDING)].filter
            Prod.fst).map Prod.snd)

/-- Gate order and role sets of spec §4.1. -/
def gateRoleSets : List (List String) :=
  [["ref_checker", "formatting"], ["first_editor"], ["second_editor"],
   ["final_review_editor"], ["publisher"]]

/-- Index of the first gate whose role set has an active-or-pending
assignment, if any (spec §4.1). -/
def first_matching_gate (db : DB) (rfc : Rfc) : Option Nat :=
  (List.range 5).find? (fun i =>
    is_active_or_pending_assignment db rfc (gateRoleSets.getD i []))

/-- Spec §4.1 `evaluate(document)`: strict five-gate ordered cascade in
fixed order; the first gate with an active-or-pending assignment in its
role set is the only gate evaluated and its reasons are returned
immediately, even if empty; if no gate matches, the empty set. -/
def evaluate_spec (db : DB) (rfc : Rfc) : Except String (List String) :=
  if is_active_or_pending_assignment db rfc ["ref_checker", "formatting"] then
    .ok (specGate1 db rfc)
  else if is_active_or_pending_assignment db rfc ["first_editor"] then
    .ok (specGate2 db rfc)
  else if is_active_or_pending_assignment db rfc ["second_editor"] then
    specGate3 db rfc
  else if is_active_or_pending_assignment db rfc ["final_review_editor"] then
    specGate4 db rfc
  else if is_active_or_pending_assignment db rfc ["publisher"] then
    specGate5 db rfc
  else
    .ok []

/-! Embedding of `rpc/lifecycle/notifications.py`.  The poller reads the
tracked historical logs, the current `RfcToBe` rows, the `TaskRun`
checkpoint row (its model is given by migration `0015_taskrun.py`:
`task_name` unique, `last_run_at`, `is_running` default false), the
`TRIGGER_RED_PRECOMPUTE_URL` setting, and the external notification sink
(modelled by a flag saying whether the POST succeeds). -/

/-- The `TaskRun` row for task `process_rfctobe_changes_for_queue`. -/
structure TaskRun where
  last_run_at : Nat
  is_running : Bool
deriving DecidableEq

/-- One `RfcToBe.history` entry: the pk of the original row, the snapshot
disposition slug, and `history_date`. -/
structure RfcHist where
  rfcId : Nat
  dispositionSlug : String
  date : Nat
deriving DecidableEq

/-- One history entry of a tracked model holding an `rfc_to_be` foreign key
(`Assignment`, `RfcAuthor`, `AdditionalEmail`, `SubseriesMember`) or a
`source` key (`RpcRelatedDocument`): the referenced document pk and
`history_date`. -/
structure RefHist where
  rfcId : Nat
  date : Nat
deriving DecidableEq

/-- One `ClusterMember.history` entry: the member datatracker document pk
and `history_date`. -/
structure DocHist where
  docId : Nat
  date : Nat
deriving DecidableEq

/-- One current `RfcToBe` row as read by the poller: pk, current
disposition slug, and the nullable `draft` document pk. -/
structure NDoc where
  id : Nat
  dispositionSlug : String
  draftId : Option Nat
deriving DecidableEq

/-- The state read and written by `rpc/lifecycle/notifications.py`. -/
structure NDB where
  docs : List NDoc
  rfcHist : List RfcHist
  assignmentHist : List RefHist
  authorHist : List RefHist
  relatedHist : List RefHist
  emailHist : List RefHist
  clusterHist : List DocHist
  subseriesHist : List RefHist
  /-- the `TaskRun` row named `process_rfctobe_changes_for_queue`, if present -/
  taskRun : Option TaskRun
  /-- value of `timezone.now()` at entry -/
  now : Nat
  /-- value of `settings.TRIGGER_RED_PRECOMPUTE_URL` -/
  red_precompute_url : String
  /-- whether the external POST to the sink succeeds (else it raises) -/
  transport_ok : Bool
deriving DecidableEq

/-- Current-row lookup for an `rfc_to_be` / `source` foreign key. -/
def NDB.findDoc (ndb : NDB) (i : Nat) : Option NDoc :=
  ndb.docs.find? (fun d => d.id == i)

/-- Embeds `_should_notify_queue(rfc)`: the referenced row exists and its
disposition slug is `in_progress` (referential integrity of the FK is
assumed; a missing row is treated as excluded). -/
def should_notify_queue (r : Option NDoc) : Bool :=
  match r with
  | some d => d.dispositionSlug == "in_progress"
  | none => false

/-- Python `set.add` folded over a per-entry id list. -/
def setInsertMany (acc : List Nat) (xs : List Nat) : List Nat :=
  xs.foldl setInsert acc

/-- One history-scan loop of `get_updated_rfcs_since`: add the ids
contributed by each entry to the accumulated set. -/
def collectIds {α : Type} (f : α → List Nat) (entries : List α)
    (acc : List Nat) : List Nat :=
  entries.foldl (fun acc e => setInsertMany acc (f e)) acc

/-- Ids contributed by one `RfcToBe.history` entry: the entry itself is
passed to `_should_notify_queue`, so the snapshot disposition decides. -/
def rfcHistIds (t : Nat) (h : RfcHist) : List Nat :=
  if decide (h.date > t) && h.dispositionSlug == "in_progress" then [h.rfcId] else []

/-- Ids contributed by one entry of an `rfc_to_be`-keyed (or `source`-keyed)
log: the disposition of the current row decides. -/
def refHistIds (ndb : NDB) (t : Nat) (h : RefHist) : List Nat :=
  if decide (h.date > t) && should_notify_queue (ndb.findDoc h.rfcId) then
    [h.rfcId]
  else []

/-- Ids contributed by one `ClusterMember.history` entry: every current
`in_progress` document whose draft is the member document. -/
def clusterHistIds (ndb : NDB) (t : Nat) (h : DocHist) : List Nat :=
  if decide (h.date > t) then
    ((ndb.docs.filter (fun d =>
        d.draftId == some h.docId && d.dispositionSlug == "in_progress")).map NDoc.id)
  else []

/-- Embeds `get_updated_rfcs_since(current_check_time)`: scan the seven
tracked logs in source order, collecting the affected document ids. -/
def get_updated_rfcs_since (ndb : NDB) (t : Nat) : List Nat :=
  let queue_rfcs : List Nat := []
  let queue_rfcs := collectIds (rfcHistIds t) ndb.rfcHist queue_rfcs
  let queue_rfcs := collectIds (refHistIds ndb t) ndb.assignmentHist queue_rfcs
  let queue_rfcs := collectIds (refHistIds ndb t) ndb.authorHist queue_rfcs
  let queue_rfcs := collectIds (refHistIds ndb t) ndb.relatedHist queue_rfcs
  let queue_rfcs := collectIds (refHistIds ndb t) ndb.emailHist queue_rfcs
  let queue_rfcs := collectIds (clusterHistIds ndb t) ndb.clusterHist queue_rfcs
  let queue_rfcs := collectIds (refHistIds ndb t) ndb.subseriesHist queue_rfcs
  queue_rfcs

/-- Embeds `get_recent_changes(check_time)`: some tracked log has an entry
with `history_date` strictly newer than `check_time - 1 minute`. -/
def get_recent_changes (ndb : NDB) (check_time : Nat) : Bool :=
  let recent_change_threshold := check_time - 60
  ndb.rfcHist.any (fun h => decide (h.date > recent_change_threshold))
  || ndb.assignmentHist.any (fun h => decide (h.date > recent_change_threshold))
  || ndb.authorHist.any (fun h => decide (h.date > recent_change_threshold))
  || ndb.relatedHist.any (fun h => decide (h.date > recent_change_threshold))
  || ndb.emailHist.any (fun h => decide (h.date > recent_change_threshold))
  || ndb.clusterHist.any (fun h => decide (h.date > recent_change_threshold))
  || ndb.subseriesHist.any (fun h => decide (h.date > recent_change_threshold))

/-- Insertion step for ascending `sorted(...)`. -/
def insertAsc (n : Nat) : List Nat → List Nat
  | [] => [n]
  | m :: l => if n ≤ m then n :: m :: l else m :: insertAsc n l

/-- Embeds Python `sorted` over the notified ids. -/
def sortAsc (l : List Nat) : List Nat :=
  l.foldr insertAsc []

/-- Embeds `notify_red_precompute(rfctobe_ids)`: with no configured URL it
returns without sending; otherwise it POSTs the sorted ids and raises if
the transport fails.  The result carries the delivered payload, if any. -/
def notify_red_precompute (ndb : NDB) (rfctobe_ids : List Nat) :
    Except String (Option (List Nat)) :=
  if ndb.red_precompute_url == "" then
    Except.ok none
  else if ndb.transport_ok then
    Except.ok (some (sortAsc rfctobe_ids))
  else
    Except.error "HTTPError: notification transport failed"

/-- How one run of the poller ended. -/
inductive PollOutcome where
  | alreadyRunning
  | skippedRecentChanges
  | completed
  | transportError
deriving DecidableEq

/-- Result of one `process_rfctobe_changes_for_queue` run: the state after
the run, the payload delivered to the sink (if any), and how it ended
(`transportError` models the re-raised exception). -/
structure PollResult where
  db : NDB
  sent : Option (List Nat)
  outcome : PollOutcome
deriving DecidableEq

/-- Embeds `process_rfctobe_changes_for_queue`: single-flight guard over
the `TaskRun` row, the quiet-period check (note the source subtracts one
minute *before* calling `get_recent_changes`, which subtracts another),
the history scan since `last_run_at`, the batched notification, checkpoint
advance, and the `finally` release of `is_running` (the final save also
persists whatever `last_run_at` the object holds in memory). -/
def process_rfctobe_changes_for_queue (ndb : NDB) : PollResult :=
  let current_check_time := ndb.now
  let task_run :=
    match ndb.taskRun with
    | some tr => tr
    | none => { last_run_at := current_check_time, is_running := false }
  if task_run.is_running then
    { db := { ndb with taskRun := some task_run }, sent := none,
      outcome := PollOutcome.alreadyRunning }
  else
    let recent_change_threshold := current_check_time - 60
    let recent_changes_exist := get_recent_changes ndb recent_change_threshold
    if recent_changes_exist then
      { db := { ndb with taskRun := some { task_run with is_running := false } },
        sent := none, outcome := PollOutcome.skippedRecentChanges }
    else
      let last_check := task_run.last_run_at
      let queue_rfcs := get_updated_rfcs_since ndb last_check
      if queue_rfcs.isEmpty then
        { db := { ndb with
            taskRun := some (TaskRun.mk current_check_time false) },
          sent := none, outcome := PollOutcome.completed }
      else
        match notify_red_precompute ndb queue_rfcs with
        | Except.error _ =>
          { db := { ndb with taskRun := some { task_run with is_running := false } },
            sent := none, outcome := PollOutcome.transportError }
        | Except.ok payload =>
          { db := { ndb with
              taskRun := some (TaskRun.mk current_check_time false) },
            sent := payload, outcome := PollOutcome.completed }



theorem contains_iff_mem {α : Type} [BEq α] [LawfulBEq α] {l : List α} {x : α} :
    l.contains x = true ↔ x ∈ l := List.elem_iff

theorem setInsert_pos {α : Type} [BEq α] {l : List α} {x : α}
    (h : l.contains x = true) : setInsert l x = l := by
  unfold setInsert
  rw [if_pos h]

theorem setInsert_neg {α : Type} [BEq α] {l : List α} {x : α}
    (h : ¬l.contains x = true) : setInsert l x = l ++ [x] := by
  unfold setInsert
  rw [if_neg h]

theorem contains_setInsert_self {α : Type} [BEq α] [LawfulBEq α] (l : List α) (x : α) :
    (setInsert l x).contains x = true := by
  by_cases h : l.contains x = true
  · rw [setInsert_pos h]
    exact h
  · rw [setInsert_neg h]
    exact contains_iff_mem.mpr (List.mem_append_right _ (List.mem_singleton.mpr rfl))

theorem mem_setInsert {α : Type} [BEq α] [LawfulBEq α] (a x : α) (l : List α) :
    a ∈ setInsert l x ↔ a = x ∨ a ∈ l := by
  by_cases h : x ∈ l
  · rw [setInsert_pos (contains_iff_mem.mpr h)]
    constructor
    · exact fun ha => Or.inr ha
    · intro ha
      rcases ha with rfl | ha
      · exact h
      · exact ha
  · rw [setInsert_neg (fun hc => h (contains_iff_mem.mp hc))]
    rw [List.mem_append, List.mem_singleton, or_comm]

theorem setInsert_setInsert {α : Type} [BEq α] [LawfulBEq α] (l : List α) (x : α) :
    setInsert (setInsert l x) x = setInsert l x :=
  setInsert_pos (contains_setInsert_self l x)

theorem addIf_addIf (b c : Bool) (l : List String) (x : String) :
    addIf b (addIf c l x) x = addIf (c || b) l x := by
  cases b <;> cases c <;> simp [addIf]
  exact setInsert_setInsert l x

theorem mem_addIf (a : String) (b : Bool) (l : List String) (x : String) :
    a ∈ addIf b l x ↔ (b = true ∧ a = x) ∨ a ∈ l := by
  cases b <;> simp [addIf, mem_setInsert]

theorem foldlM_addIf (db : DB) (q : Rfc → Bool) (x : String) :
    ∀ (refs : List RelatedDoc) (acc : List String),
    (List.foldlM (fun acc d => do
        let t ← targetRfc db d
        pure (addIf (q t) acc x)) acc refs : Except String (List String))
    = (targetsOf db refs).map (fun ts => addIf (ts.any q) acc x) := by
  intro refs
  induction refs with
  | nil =>
    intro acc
    simp [targetsOf, Except.map, addIf, Pure.pure, Except.pure]
  | cons d rest ih =>
    intro acc
    cases ht : targetRfc db d with
    | error e =>
      simp only [List.foldlM_cons, targetsOf, ht, Except.map, Except.bind, Bind.bind,
        Functor.map, Pure.pure, Except.pure]
    | ok t =>
      simp only [List.foldlM_cons, targetsOf, ht, Functor.map]
      cases hts : targetsOf db rest with
      | error e =>
        have hrw := ih (addIf (q t) acc x)
        simp only [hts, Except.map, Except.bind, Bind.bind, Pure.pure, Except.pure] at hrw ⊢
        exact hrw
      | ok ts =>
        have hrw := ih (addIf (q t) acc x)
        simp only [hts, Except.map, Except.bind, Bind.bind, Pure.pure, Except.pure] at hrw ⊢
        rw [hrw, addIf_addIf]
        simp [List.any_cons]

theorem hasAnyLabel_single (rfc : Rfc) (a : String) :
    hasAnyLabel rfc [a] = hasLabel rfc a := by
  simp [hasAnyLabel, hasLabel]

theorem hasAnyLabel_pair (rfc : Rfc) (a b : String) :
    hasAnyLabel rfc [a, b] = (hasLabel rfc a || hasLabel rfc b) := by
  simp [hasAnyLabel, hasLabel]

theorem hasRelIn_three (db : DB) (rid : Nat) (s1 s2 s3 : String) :
    hasRelIn db rid [s1, s2, s3]
    = (hasRel db rid s1 || hasRel db rid s2 || hasRel db rid s3) := by
  unfold hasRelIn hasRel
  rw [Bool.eq_iff_iff]
  simp only [List.any_eq_true, Bool.and_eq_true, Bool.or_eq_true]
  constructor
  · rintro ⟨d, hd, hsrc, hslug⟩
    have : d.relationshipSlug = s1 ∨ d.relationshipSlug = s2 ∨ d.relationshipSlug = s3 := by
      have := contains_iff_mem.mp hslug
      simpa using this
    rcases this with h | h | h
    · exact Or.inl (Or.inl ⟨d, hd, hsrc, by simp [h]⟩)
    · exact Or.inl (Or.inr ⟨d, hd, hsrc, by simp [h]⟩)
    · exact Or.inr ⟨d, hd, hsrc, by simp [h]⟩
  · rintro ((⟨d, hd, hsrc, hs⟩ | ⟨d, hd, hsrc, hs⟩) | ⟨d, hd, hsrc, hs⟩) <;>
      refine ⟨d, hd, hsrc, contains_iff_mem.mpr ?_⟩ <;>
      simp only [beq_iff_eq] at hs <;> simp [hs]

theorem get_block_reasons_eq_spec (db : DB) (rfc : Rfc) :
    get_block_reasons db rfc = evaluate_spec db rfc := by
  unfold get_block_reasons evaluate_spec
  by_cases h1 : is_active_or_pending_assignment db rfc ["ref_checker", "formatting"] = true
  · rw [if_pos h1, if_pos h1]
    unfold specGate1
    rw [show DocRelationshipName.NOT_RECEIVED_RELATIONSHIP_SLUGS =
      [DocRelationshipName.NOT_RECEIVED_RELATIONSHIP_SLUG,
       DocRelationshipName.NOT_RECEIVED_2G_RELATIONSHIP_SLUG,
       DocRelationshipName.NOT_RECEIVED_3G_RELATIONSHIP_SLUG] from rfl,
      hasRelIn_three]
    generalize hasActiveActionHolder db rfc.id = ah
    generalize hasLabel rfc "Stream Hold" = sh
    generalize hasLabel rfc "ExtRef Hold" = eh
    generalize hasLabel rfc "Author Input Required" = air
    generalize hasRel db rfc.id DocRelationshipName.NOT_RECEIVED_RELATIONSHIP_SLUG = t1
    generalize hasRel db rfc.id DocRelationshipName.NOT_RECEIVED_2G_RELATIONSHIP_SLUG = t2
    generalize hasRel db rfc.id DocRelationshipName.NOT_RECEIVED_3G_RELATIONSHIP_SLUG = t3
    cases ah <;> cases sh <;> cases eh <;> cases air <;> cases t1 <;> cases t2 <;>
      cases t3 <;> rfl
  · rw [if_neg h1, if_neg h1]
    by_cases h2 : is_active_or_pending_assignment db rfc ["first_editor"] = true
    · rw [if_pos h2, if_pos h2]
      unfold specGate2
      simp only [hasAnyLabel_pair, hasAnyLabel_single]
      generalize hasActiveActionHolder db rfc.id = ah
      generalize hasLabel rfc "Stream Hold" = sh
      generalize hasLabel rfc "Author Input Required" = air
      cases ah <;> cases sh <;> cases air <;> rfl
    · rw [if_neg h2, if_neg h2]
      by_cases h3 : is_active_or_pending_assignment db rfc ["second_editor"] = true
      · rw [if_pos h3, if_pos h3]
        unfold specGate3
        simp only [hasAnyLabel_pair, hasAnyLabel_single, foldlM_addIf]
        cases hts : targetsOf db (refqueueRefs db rfc.id) with
        | error e =>
          simp only [hts, Except.map, Except.bind, Bind.bind, Pure.pure, Except.pure]
        | ok ts =>
          simp only [hts, Except.map, Except.bind, Bind.bind, Pure.pure, Except.pure]
          generalize hasActiveActionHolder db rfc.id = ah
          generalize hasLabel rfc "Stream Hold" = sh
          generalize hasLabel rfc "IANA Hold" = iana
          generalize ts.any (fun t => roleIncompleteFor db t "first_editor") = anyq
          cases ah <;> cases sh <;> cases iana <;> cases anyq <;> rfl
      · rw [if_neg h3, if_neg h3]
        by_cases h4 : is_active_or_pending_assignment db rfc ["final_review_editor"] = true
        · rw [if_pos h4, if_pos h4]
          unfold specGate4
          simp only [hasAnyLabel_pair, hasAnyLabel_single, foldlM_addIf]
          cases hts : targetsOf db (refqueueRefs db rfc.id) with
          | error e =>
            simp only [hts, Except.map, Except.bind, Bind.bind, Pure.pure, Except.pure]
          | ok ts =>
            simp only [hts, Except.map, Except.bind, Bind.bind, Pure.pure, Except.pure]
            generalize hasLabel rfc "Stream Hold" = sh
            generalize hasActiveActionHolder db rfc.id = ah
            generalize ts.any (fun t => roleIncompleteFor db t "second_editor") = anyq
            cases sh <;> cases ah <;> cases anyq <;> rfl
        · rw [if_neg h4, if_neg h4]
          by_cases h5 : is_active_or_pending_assignment db rfc ["publisher"] = true
          · rw [if_pos h5, if_pos h5]
            unfold specGate5
            simp only [hasAnyLabel_pair, hasAnyLabel_single, foldlM_addIf]
            cases hts : targetsOf db (refqueueRefs db rfc.id) with
            | error e =>
              simp only [hts, Except.map, Except.bind, Bind.bind, Pure.pure, Except.pure]
            | ok ts =>
              simp only [hts, Except.map, Except.bind, Bind.bind, Pure.pure, Except.pure]
              generalize hasLabel rfc "Stream Hold" = sh
              generalize hasLabel rfc "IANA Hold" = iana
              generalize hasLabel rfc "Tools Issue" = tools
              generalize hasActiveFinalApproval db rfc.id = fap
              generalize ts.any (fun t => !publisherDoneOrActive db t.id) = anyq
              cases sh <;> cases iana <;> cases tools <;> cases fap <;> cases anyq <;> rfl
          · rw [if_neg h5, if_neg h5]

theorem no_gate_empty (db : DB) (rfc : Rfc)
    (h : first_matching_gate db rfc = none) :
    get_block_reasons db rfc = Except.ok [] := by
  unfold first_matching_gate at h
  rw [List.find?_eq_none] at h
  have h1 := h 0 (by simp)
  have h2 := h 1 (by simp)
  have h3 := h 2 (by simp)
  have h4 := h 3 (by simp)
  have h5 := h 4 (by simp)
  simp only [gateRoleSets, List.getD] at h1 h2 h3 h4 h5
  unfold get_block_reasons
  rw [if_neg (by simpa using h1), if_neg (by simpa using h2), if_neg (by simpa using h3),
    if_neg (by simpa using h4), if_neg (by simpa using h5)]

open BlockingReason in
theorem gate1_tier_shape (ah sh eh air : Bool) (t : String)
    (hmem : t = REFERENCE_NOT_RECEIVED ∨ t = REFERENCE_NOT_RECEIVED_2G ∨
      t = REFERENCE_NOT_RECEIVED_3G) :
    ((setInsert (addIf air (addIf eh (addIf sh (addIf ah [] ACTION_HOLDER_ACTIVE)
        LABEL_STREAM_HOLD) LABEL_EXTREF_HOLD) LABEL_AUTHOR_INPUT_REQUIRED) t).filter
      (fun r => [REFERENCE_NOT_RECEIVED, REFERENCE_NOT_RECEIVED_2G,
        REFERENCE_NOT_RECEIVED_3G].contains r)).length = 1
    ∧ t ∈ setInsert (addIf air (addIf eh (addIf sh (addIf ah [] ACTION_HOLDER_ACTIVE)
        LABEL_STREAM_HOLD) LABEL_EXTREF_HOLD) LABEL_AUTHOR_INPUT_REQUIRED) t := by
  rcases hmem with rfl | rfl | rfl <;> revert ah sh eh air <;> decide

open BlockingReason DocRelationshipName in
/-- Claim C6: for a gate-1 document with at least one not-received
relationship, get_block_reasons adds exactly one tier reason, by fixed
precedence: the base tier if present, else the 2g tier if present, else the
3g tier; no two tier reasons ever co-occur in the result. -/
theorem gate1_tier_precedence (db : DB) (rfc : Rfc)
    (h1 : is_active_or_pending_assignment db rfc ["ref_checker", "formatting"] = true)
    (h2 : hasRelIn db rfc.id NOT_RECEIVED_RELATIONSHIP_SLUGS = true) :
    ∃ rs, get_block_reasons db rfc = Except.ok rs
      ∧ (rs.filter (fun r => [REFERENCE_NOT_RECEIVED, REFERENCE_NOT_RECEIVED_2G,
            REFERENCE_NOT_RECEIVED_3G].contains r)).length = 1
      ∧ (hasRel db rfc.id NOT_RECEIVED_RELATIONSHIP_SLUG = true →
          REFERENCE_NOT_RECEIVED ∈ rs)
      ∧ (hasRel db rfc.id NOT_RECEIVED_RELATIONSHIP_SLUG = false →
          hasRel db rfc.id NOT_RECEIVED_2G_RELATIONSHIP_SLUG = true →
          REFERENCE_NOT_RECEIVED_2G ∈ rs)
      ∧ (hasRel db rfc.id NOT_RECEIVED_RELATIONSHIP_SLUG = false →
          hasRel db rfc.id NOT_RECEIVED_2G_RELATIONSHIP_SLUG = false →
          REFERENCE_NOT_RECEIVED_3G ∈ rs) := by
  have hrw : NOT_RECEIVED_RELATIONSHIP_SLUGS =
      [NOT_RECEIVED_RELATIONSHIP_SLUG, NOT_RECEIVED_2G_RELATIONSHIP_SLUG,
       NOT_RECEIVED_3G_RELATIONSHIP_SLUG] := rfl
  rw [hrw, hasRelIn_three] at h2
  unfold get_block_reasons
  rw [if_pos h1, hrw, hasRelIn_three, if_pos h2]
  by_cases ht1 : hasRel db rfc.id NOT_RECEIVED_RELATIONSHIP_SLUG = true
  · rw [if_pos ht1]
    refine ⟨_, rfl, (gate1_tier_shape _ _ _ _ _ (Or.inl rfl)).1,
      fun _ => (gate1_tier_shape _ _ _ _ _ (Or.inl rfl)).2, fun hf _ => ?_, fun hf _ => ?_⟩ <;>
      · rw [hf] at ht1
        exact absurd ht1 (by decide)
  · rw [if_neg ht1]
    rw [Bool.not_eq_true] at ht1
    by_cases ht2 : hasRel db rfc.id NOT_RECEIVED_2G_RELATIONSHIP_SLUG = true
    · rw [if_pos ht2]
      refine ⟨_, rfl, (gate1_tier_shape _ _ _ _ _ (Or.inr (Or.inl rfl))).1,
        fun hc => ?_, fun _ _ => (gate1_tier_shape _ _ _ _ _ (Or.inr (Or.inl rfl))).2,
        fun _ hf => ?_⟩
      · rw [hc] at ht1
        exact absurd ht1 (by decide)
      · rw [hf] at ht2
        exact absurd ht2 (by decide)
    · rw [if_neg ht2]
      rw [Bool.not_eq_true] at ht2
      have ht3 : hasRel db rfc.id NOT_RECEIVED_3G_RELATIONSHIP_SLUG = true := by
        rw [ht1, ht2] at h2
        simpa using h2
      rw [if_pos ht3]
      refine ⟨_, rfl, (gate1_tier_shape _ _ _ _ _ (Or.inr (Or.inr rfl))).1,
        fun hc => ?_, fun _ hc => ?_,
        fun _ _ => (gate1_tier_shape _ _ _ _ _ (Or.inr (Or.inr rfl))).2⟩
      · rw [hc] at ht1
        exact absurd ht1 (by decide)
      · rw [hc] at ht2
        exact absurd ht2 (by decide)

/-- Claim C4 (corrected): a reconcile call whose computed reason set agrees
with the stored blocked-assignment state performs no mutation and returns
False. The claim as stated (the second of two consecutive calls is always a
no-op) fails in both directions: after a transition into the blocked state,
blocking closes the gate-matching assignments, so the gate no longer matches
on the second call, which un-blocks the document and returns True; and after
that transition out, the recreated assignment makes the gate match again, so
while the triggering label persists the third call re-blocks, mutating the
state and returning True once more (the counterexample proves the whole
oscillation). -/
theorem reconcile_second_call_noop (db1 : DB) (rid : Nat) (r : Rfc) (rs : List String)
    (hfind : db1.findRfc rid = some r)
    (hrs : get_block_reasons db1 r = Except.ok rs)
    (hagree : rs.isEmpty = !(has_active_blocked_assignment db1 rid)) :
    apply_blocked_assignment_for_rfc db1 rid = Except.ok (db1, false) := by
  simp only [apply_blocked_assignment_for_rfc, hfind, hrs]
  cases hb : has_active_blocked_assignment db1 rid <;> rw [hb] at hagree <;>
    simp [hagree]

def dbC4 : DB :=
  { rfcs := [{ id := 1, dispositionSlug := "in_progress", labels := ["Stream Hold"],
               pendingSlugs := [], incompleteSlugs := [] }],
    assignments := [{ id := 1, rfcId := 1, person := some 1, roleSlug := "first_editor",
                      state := AState.assigned, comment := "", histDates := [0] }],
    relatedDocs := [], actionHolders := [], finalApprovals := [], blockingRecs := [],
    reasonSlugs := ["label_stream_hold"], roleSlugs := ["blocked", "first_editor"],
    nextId := 2, now := 100 }

theorem reconcile_idempotence_counterexample :
    (apply_blocked_assignment_for_rfc dbC4 1).map (fun p => p.2) = Except.ok true
    ∧ ((apply_blocked_assignment_for_rfc dbC4 1).bind
        (fun p => apply_blocked_assignment_for_rfc p.1 1)).map (fun p => p.2)
      = Except.ok true
    ∧ ((apply_blocked_assignment_for_rfc dbC4 1).bind
        (fun p => (apply_blocked_assignment_for_rfc p.1 1).map
          (fun q => decide (q.1 = p.1))))
      = Except.ok false
    ∧ ((apply_blocked_assignment_for_rfc dbC4 1).bind
        (fun p => (apply_blocked_assignment_for_rfc p.1 1).bind
          (fun q => (apply_blocked_assignment_for_rfc q.1 1).map
            (fun s => (s.2, decide (s.1 = q.1))))))
      = Except.ok (true, false) := by
  refine ⟨rfl, rfl, rfl, rfl⟩

/-- Runs the batch over a prefix of document ids, `none` if some reconcile raised. -/
def run_until_failure : List Nat → DB → Option DB
  | [], db => some db
  | rid :: rest, db =>
    match apply_blocked_assignment_for_rfc db rid with
    | Except.ok p => run_until_failure rest p.1
    | Except.error _ => none


theorem batch_go_stops (l1 : List Nat) :
    ∀ (db db' : DB) (l2 : List Nat) (r : Nat) (e : String),
    run_until_failure l1 db = some db' →
    apply_blocked_assignment_for_rfc db' r = Except.error e →
    update_blocked_go (l1 ++ r :: l2) db = (db', some e) := by
  induction l1 with
  | nil =>
    intro db db' l2 r e hpre herr
    unfold run_until_failure at hpre
    cases hpre
    simp only [List.nil_append, update_blocked_go, herr]
  | cons a rest ih =>
    intro db db' l2 r e hpre herr
    simp only [List.cons_append, update_blocked_go]
    cases ha : apply_blocked_assignment_for_rfc db a with
    | error e2 =>
      simp only [run_until_failure, ha] at hpre
      exact Option.noConfusion hpre
    | ok p =>
      simp only [run_until_failure, ha] at hpre
      simp only [ha]
      exact ih p.1 db' l2 r e hpre herr

/-- Claim C2 (corrected): update_blocked_assignments_for_in_progress_rfcs
iterates the in-progress documents in order, but the loop body has no
exception handling: when reconciling one document raises, the batch stops
with that error and the remaining documents are not reconciled, contrary to
the claimed per-document failure isolation. -/
theorem batch_failure_aborts_rest (db db' : DB) (l1 l2 : List Nat) (r : Nat) (e : String)
    (hids : in_progress_ids db = l1 ++ r :: l2)
    (hpre : run_until_failure l1 db = some db')
    (herr : apply_blocked_assignment_for_rfc db' r = Except.error e) :
    update_blocked_assignments_for_in_progress_rfcs db = (db', some e) := by
  unfold update_blocked_assignments_for_in_progress_rfcs
  rw [hids]
  exact batch_go_stops l1 db db' l2 r e hpre herr

def dbC2 : DB :=
  { rfcs := [{ id := 1, dispositionSlug := "in_progress", labels := ["ExtRef Hold"],
               pendingSlugs := [], incompleteSlugs := [] },
             { id := 2, dispositionSlug := "in_progress", labels := ["Stream Hold"],
               pendingSlugs := [], incompleteSlugs := [] }],
    assignments := [{ id := 1, rfcId := 1, person := some 1, roleSlug := "ref_checker",
                      state := AState.assigned, comment := "", histDates := [0] },
                    { id := 2, rfcId := 2, person := some 2, roleSlug := "first_editor",
                      state := AState.assigned, comment := "", histDates := [0] }],
    relatedDocs := [], actionHolders := [], finalApprovals := [], blockingRecs := [],
    reasonSlugs := ["label_stream_hold"],
    roleSlugs := ["blocked", "ref_checker", "first_editor"],
    nextId := 3, now := 100 }

theorem batch_isolation_counterexample :
    (update_blocked_assignments_for_in_progress_rfcs dbC2).1 = dbC2
    ∧ (update_blocked_assignments_for_in_progress_rfcs dbC2).2.isSome = true
    ∧ (apply_blocked_assignment_for_rfc dbC2 2).map
        (fun p => (p.2, decide (p.1 = dbC2))) = Except.ok (true, false) := by
  refine ⟨rfl, rfl, rfl⟩

theorem batch_failure_aborts_rest_witness :
    update_blocked_assignments_for_in_progress_rfcs dbC2
      = (dbC2, some "RuntimeError: Failed to apply blocked assignment") :=
  batch_failure_aborts_rest dbC2 dbC2 [] [2] 1 "RuntimeError: Failed to apply blocked assignment"
    rfl rfl rfl
theorem updateAssignment_fields (db : DB) (aid : Nat) (f : Assignment → Assignment) :
    (db.updateAssignment aid f).blockingRecs = db.blockingRecs
    ∧ (db.updateAssignment aid f).now = db.now
    ∧ (db.updateAssignment aid f).nextId = db.nextId
    ∧ (db.updateAssignment aid f).rfcs = db.rfcs := ⟨rfl, rfl, rfl, rfl⟩

theorem createAssignment_fields (db : DB) (rid : Nat) (role : String)
    (person : Option Nat) (st : AState) (c : String) :
    (db.createAssignment rid role person st c).blockingRecs = db.blockingRecs
    ∧ (db.createAssignment rid role person st c).now = db.now
    ∧ (db.createAssignment rid role person st c).nextId = db.nextId + 1
    ∧ (db.createAssignment rid role person st c).rfcs = db.rfcs := ⟨rfl, rfl, rfl, rfl⟩

theorem updateOrCreate_fields (db : DB) (rid : Nat) (role : String)
    (person : Option Nat) (st : AState) (c : String) :
    (db.updateOrCreateAssignment rid role person st c).blockingRecs = db.blockingRecs
    ∧ (db.updateOrCreateAssignment rid role person st c).now = db.now
    ∧ (db.updateOrCreateAssignment rid role person st c).rfcs = db.rfcs := by
  unfold DB.updateOrCreateAssignment
  cases hf : db.assignments.find? (fun a =>
      a.rfcId == rid && a.roleSlug == role && a.person == person && a.state == st) with
  | none => exact ⟨rfl, rfl, rfl⟩
  | some a => exact ⟨rfl, rfl, rfl⟩


theorem closeStep_blockingRecs (rid : Nat) (db : DB) (a : Assignment) :
    (closeStep rid db a).blockingRecs = db.blockingRecs := by
  unfold closeStep
  dsimp only
  split
  · rw [(updateOrCreate_fields _ _ _ _ _ _).1]
    rfl
  · rfl

theorem closeStep_now (rid : Nat) (db : DB) (a : Assignment) :
    (closeStep rid db a).now = db.now := by
  unfold closeStep
  dsimp only
  split
  · rw [(updateOrCreate_fields _ _ _ _ _ _).2.1]
    rfl
  · rfl

theorem foldl_closeStep_blockingRecs (rid : Nat) :
    ∀ (l : List Assignment) (db : DB),
    (l.foldl (closeStep rid) db).blockingRecs = db.blockingRecs := by
  intro l
  induction l with
  | nil => intro db; rfl
  | cons a rest ih =>
    intro db
    rw [List.foldl_cons, ih, closeStep_blockingRecs]

theorem foldl_closeStep_now (rid : Nat) :
    ∀ (l : List Assignment) (db : DB),
    (l.foldl (closeStep rid) db).now = db.now := by
  intro l
  induction l with
  | nil => intro db; rfl
  | cons a rest ih =>
    intro db
    rw [List.foldl_cons, ih, closeStep_now]

theorem closeStep_evolve (rid : Nat) (db : DB) (a : Assignment) (x : Assignment)
    (hx : x ∈ db.assignments) :
    ∃ x2 ∈ (closeStep rid db a).assignments,
      x2.id = x.id ∧ x2.rfcId = x.rfcId ∧ x2.roleSlug = x.roleSlug ∧
      x2.person = x.person ∧
      x2.state = (if x.id = a.id then AState.done else x.state) ∧
      (x2.comment = x.comment ∨ x2.comment = "Re-created after blocked state cleared") := by
  have h1 : ∃ x1 ∈ (db.updateAssignment a.id
      (fun y => { y with state := AState.done })).assignments,
      x1.id = x.id ∧ x1.rfcId = x.rfcId ∧ x1.roleSlug = x.roleSlug ∧
      x1.person = x.person ∧ x1.state = (if x.id = a.id then AState.done else x.state) ∧
      x1.comment = x.comment := by
    refine ⟨_, List.mem_map_of_mem _ hx, ?_⟩
    by_cases hid : x.id = a.id <;> simp [hid]
  obtain ⟨x1, hx1, hid1, hrfc1, hrole1, hper1, hst1, hcom1⟩ := h1
  unfold closeStep
  dsimp only
  split
  · -- some latest_assignment: update_or_create
    unfold DB.updateOrCreateAssignment
    split
    · -- found: comment update
      refine ⟨_, List.mem_map_of_mem _ hx1, ?_⟩
      rename_i found hfound
      by_cases hid2 : x1.id = found.id
      · have hc : (x1.id == found.id) = true := by simp [hid2]
        rw [if_pos hc]
        exact ⟨hid1, hrfc1, hrole1, hper1, hst1, Or.inr rfl⟩
      · have hc : ¬((x1.id == found.id) = true) := by simp [hid2]
        rw [if_neg hc]
        exact ⟨hid1, hrfc1, hrole1, hper1, hst1, Or.inl hcom1⟩
    · -- not found: create
      refine ⟨x1, ?_, hid1, hrfc1, hrole1, hper1, hst1, Or.inl hcom1⟩
      unfold DB.createAssignment
      exact List.mem_append_left _ hx1
  · -- none
    exact ⟨x1, hx1, hid1, hrfc1, hrole1, hper1, hst1, Or.inl hcom1⟩

theorem closeStep_origin (rid : Nat) (db : DB) (a : Assignment) (y : Assignment)
    (hy : y ∈ (closeStep rid db a).assignments) :
    (∃ x ∈ db.assignments, y.id = x.id ∧ y.rfcId = x.rfcId ∧ y.roleSlug = x.roleSlug ∧
      y.person = x.person ∧ (y.state = x.state ∨ x.id = a.id) ∧
      (y.comment = x.comment ∨ y.comment = "Re-created after blocked state cleared"))
    ∨ (y.id = db.nextId ∧ y.rfcId = rid ∧ y.state = AState.assigned ∧
        y.comment = "Re-created after blocked state cleared" ∧
        ∃ la, latest_closed_for_hold (db.updateAssignment a.id
            (fun x => { x with state := AState.done })) rid a.person = some la ∧
          y.roleSlug = la.roleSlug ∧ y.person = la.person) := by
  unfold closeStep at hy
  dsimp only at hy
  split at hy
  · rename_i la hla
    unfold DB.updateOrCreateAssignment at hy
    split at hy
    · rename_i found hfound
      obtain ⟨x1, hx1, hy1⟩ := List.mem_map.mp hy
      obtain ⟨x0, hx0, hx01⟩ := List.mem_map.mp hx1
      left
      refine ⟨x0, hx0, ?_⟩
      subst hy1
      subst hx01
      by_cases c1 : x0.id = a.id <;> by_cases c2 : x0.id = found.id
      · have c3 : a.id = found.id := c1 ▸ c2
        simp [c1, c2, c3]
      · have c3 : ¬(a.id = found.id) := fun h => c2 (c1.trans h)
        simp [c1, c2, c3]
      · have c3 : ¬(found.id = a.id) := fun h => c1 (c2.trans h)
        simp [c1, c2, c3]
      · simp [c1, c2]
    · rename_i hfound
      unfold DB.createAssignment at hy
      rcases List.mem_append.mp hy with hmem | hnew
      · obtain ⟨x0, hx0, hx01⟩ := List.mem_map.mp hmem
        left
        refine ⟨x0, hx0, ?_⟩
        subst hx01
        by_cases c1 : x0.id = a.id <;> simp [c1]
      · right
        have hyeq : y = Assignment.mk db.nextId rid la.person la.roleSlug
            AState.assigned "Re-created after blocked state cleared" [db.now] := by
          simpa using hnew
        subst hyeq
        exact ⟨rfl, rfl, rfl, rfl, la, hla, rfl, rfl⟩
  · rename_i hla
    simp only [DB.updateAssignment] at hy
    obtain ⟨x0, hx0, hx01⟩ := List.mem_map.mp hy
    left
    refine ⟨x0, hx0, ?_⟩
    subst hx01
    by_cases c1 : x0.id = a.id <;> simp [c1]

theorem closeStep_recreate (rid : Nat) (db : DB) (a : Assignment) (la : Assignment)
    (hla : latest_closed_for_hold (db.updateAssignment a.id
        (fun x => { x with state := AState.done })) rid a.person = some la) :
    ∃ y ∈ (closeStep rid db a).assignments,
      y.rfcId = rid ∧ y.roleSlug = la.roleSlug ∧ y.person = la.person ∧
      y.state = AState.assigned ∧
      y.comment = "Re-created after blocked state cleared" := by
  unfold closeStep
  dsimp only
  split
  · rename_i la2 hla2
    rw [hla] at hla2
    have hla2e : la = la2 := by
      injection hla2
    subst hla2e
    unfold DB.updateOrCreateAssignment
    split
    · rename_i found hfound
      have hp := List.find?_some hfound
      have hmem := List.mem_of_find?_eq_some hfound
      simp only [Bool.and_eq_true, beq_iff_eq] at hp
      obtain ⟨⟨⟨h1, h2⟩, h3⟩, h4⟩ := hp
      refine ⟨_, List.mem_map_of_mem _ hmem, ?_⟩
      have hc : (found.id == found.id) = true := by simp
      rw [if_pos hc]
      exact ⟨h1, h2, h3, h4, rfl⟩
    · rename_i hfound
      unfold DB.createAssignment
      exact ⟨_, List.mem_append_right _ (List.mem_singleton.mpr rfl),
        rfl, rfl, rfl, rfl, rfl⟩
  · rename_i hnone
    rw [hla] at hnone
    exact Option.noConfusion hnone

theorem filter_map_eq {α : Type} (g : α → α) (p : α → Bool) :
    ∀ (l : List α), (∀ x ∈ l, p (g x) = p x ∧ (p x = true → g x = x)) →
    (l.map g).filter p = l.filter p := by
  intro l
  induction l with
  | nil => intro _; rfl
  | cons x rest ih =>
    intro h
    have hx := h x (by simp)
    have htail : (rest.map g).filter p = rest.filter p :=
      ih (fun y hy => h y (by simp [hy]))
    cases hpg : p x with
    | false =>
      have hgx : ¬(p (g x) = true) := by
        rw [hx.1, hpg]
        simp
      rw [List.map_cons, List.filter_cons_of_neg hgx,
        List.filter_cons_of_neg (by simp [hpg]), htail]
    | true =>
      rw [List.map_cons, hx.2 hpg, List.filter_cons_of_pos hpg,
        List.filter_cons_of_pos hpg, htail]

theorem latest_congr (db1 db2 : DB) (rid : Nat) (p : Option Nat)
    (h : db1.assignments.filter (fun x =>
        x.rfcId == rid && x.state == AState.closedForHold && x.person == p)
      = db2.assignments.filter (fun x =>
        x.rfcId == rid && x.state == AState.closedForHold && x.person == p)) :
    latest_closed_for_hold db1 rid p = latest_closed_for_hold db2 rid p := by
  unfold latest_closed_for_hold
  dsimp only
  rw [h]

theorem state_ne_cfh_of_active (x : Assignment) (h : x.state.isActive = true) :
    (x.state == AState.closedForHold) = false := by
  cases hs : x.state <;> simp_all [AState.isActive]

theorem updateAssignment_map_id (db : DB) (aid : Nat) (f : Assignment → Assignment)
    (hf : ∀ x, (f x).id = x.id) :
    (db.updateAssignment aid f).assignments.map Assignment.id
      = db.assignments.map Assignment.id := by
  simp only [DB.updateAssignment]
  rw [List.map_map]
  refine List.map_congr_left (fun x _ => ?_)
  by_cases c : x.id = aid
  · have hb : (x.id == aid) = true := by simp [c]
    simp only [Function.comp_apply, if_pos hb]
    exact hf x
  · have hb : ¬((x.id == aid) = true) := by simp [c]
    simp only [Function.comp_apply, if_neg hb]

theorem updateAssignment_cfh_done (db : DB) (aid : Nat) (rid : Nat) (p : Option Nat)
    (hact : ∀ x ∈ db.assignments, x.id = aid → x.state.isActive = true) :
    (db.updateAssignment aid
        (fun y => { y with state := AState.done })).assignments.filter
      (fun x => x.rfcId == rid && x.state == AState.closedForHold && x.person == p)
    = db.assignments.filter
      (fun x => x.rfcId == rid && x.state == AState.closedForHold && x.person == p) := by
  simp only [DB.updateAssignment]
  refine filter_map_eq _ _ _ (fun x hx => ?_)
  by_cases c : x.id = aid
  · have hxa := hact x hx c
    have hxs := state_ne_cfh_of_active x hxa
    have hb : (x.id == aid) = true := by simp [c]
    constructor
    · simp [hb, hxs]
    · intro hp
      simp [hxs] at hp
  · have hb : ¬((x.id == aid) = true) := by simp [c]
    constructor
    · rw [if_neg hb]
    · intro _
      rw [if_neg hb]

theorem updateAssignment_cfh_comment (db : DB) (aid : Nat) (rid : Nat) (p : Option Nat)
    (hasg : ∀ x ∈ db.assignments, x.id = aid → x.state = AState.assigned) :
    (db.updateAssignment aid
        (fun y => { y with comment := "Re-created after blocked state cleared" })).assignments.filter
      (fun x => x.rfcId == rid && x.state == AState.closedForHold && x.person == p)
    = db.assignments.filter
      (fun x => x.rfcId == rid && x.state == AState.closedForHold && x.person == p) := by
  simp only [DB.updateAssignment]
  refine filter_map_eq _ _ _ (fun x hx => ?_)
  by_cases c : x.id = aid
  · have hxa := hasg x hx c
    have hxs : (x.state == AState.closedForHold) = false := by
      rw [hxa]
      decide
    have hb : (x.id == aid) = true := by simp [c]
    constructor
    · simp [hb, hxs]
    · intro hp
      simp [hxs] at hp
  · have hb : ¬((x.id == aid) = true) := by simp [c]
    constructor
    · rw [if_neg hb]
    · intro _
      rw [if_neg hb]

theorem closeStep_cfh (rid : Nat) (db : DB) (a : Assignment) (p : Option Nat)
    (hnodup : (db.assignments.map Assignment.id).Nodup)
    (hact : ∀ x ∈ db.assignments, x.id = a.id → x.state.isActive = true) :
    (closeStep rid db a).assignments.filter
        (fun x => x.rfcId == rid && x.state == AState.closedForHold && x.person == p)
      = db.assignments.filter
        (fun x => x.rfcId == rid && x.state == AState.closedForHold && x.person == p) := by
  have h1 := updateAssignment_cfh_done db a.id rid p hact
  unfold closeStep
  dsimp only
  split
  · rename_i la hla
    unfold DB.updateOrCreateAssignment
    split
    · rename_i found hfound
      have hp2 := List.find?_some hfound
      have hmem2 := List.mem_of_find?_eq_some hfound
      simp only [Bool.and_eq_true, beq_iff_eq] at hp2
      have hnodup2 : ((db.updateAssignment a.id
          (fun y => { y with state := AState.done })).assignments.map
            Assignment.id).Nodup := by
        rw [updateAssignment_map_id db a.id
          (fun y => { y with state := AState.done }) (fun x => rfl)]
        exact hnodup
      have hasg : ∀ x ∈ (db.updateAssignment a.id
          (fun y => { y with state := AState.done })).assignments,
          x.id = found.id → x.state = AState.assigned := by
        intro x hx hxid
        have hxf := List.inj_on_of_nodup_map hnodup2 hx hmem2 hxid
        rw [hxf]
        exact hp2.2
      rw [updateAssignment_cfh_comment _ found.id rid p hasg, h1]
    · rename_i hfound
      unfold DB.createAssignment
      dsimp only
      rw [List.filter_append, h1]
      simp
  · rename_i hla
    exact h1

theorem bound_of_map_id_eq (l1 l2 : List Assignment) (n : Nat)
    (h : l1.map Assignment.id = l2.map Assignment.id)
    (hb : ∀ x ∈ l2, x.id < n) : ∀ x ∈ l1, x.id < n := by
  intro x hx
  have hmm : x.id ∈ l1.map Assignment.id := List.mem_map_of_mem _ hx
  rw [h] at hmm
  obtain ⟨y, hy, hyx⟩ := List.mem_map.mp hmm
  exact hyx ▸ hb y hy

theorem closeStep_ids (rid : Nat) (db : DB) (a : Assignment)
    (hnodup : (db.assignments.map Assignment.id).Nodup)
    (hbound : ∀ x ∈ db.assignments, x.id < db.nextId) :
    ((closeStep rid db a).assignments.map Assignment.id).Nodup
    ∧ (∀ x ∈ (closeStep rid db a).assignments, x.id < (closeStep rid db a).nextId)
    ∧ db.nextId ≤ (closeStep rid db a).nextId := by
  have hid1 := updateAssignment_map_id db a.id
    (fun y => { y with state := AState.done }) (fun x => rfl)
  unfold closeStep
  dsimp only
  split
  · rename_i la hla
    unfold DB.updateOrCreateAssignment
    split
    · rename_i found hfound
      have hid2 := updateAssignment_map_id
        (db.updateAssignment a.id (fun y => { y with state := AState.done }))
        found.id (fun y => { y with comment := "Re-created after blocked state cleared" })
        (fun x => rfl)
      constructor
      · rw [hid2, hid1]
        exact hnodup
      constructor
      · exact bound_of_map_id_eq _ _ _ (hid2.trans hid1) hbound
      · exact le_refl _
    · rename_i hfound
      unfold DB.createAssignment
      dsimp only
      constructor
      · rw [List.map_append]
        rw [List.nodup_append]
        refine ⟨by rw [hid1]; exact hnodup, by simp, ?_⟩
        intro i hi1 hi2
        simp only [List.map_cons, List.map_nil, List.mem_singleton] at hi2
        rw [hid1] at hi1
        obtain ⟨y, hy, hyx⟩ := List.mem_map.mp hi1
        have hlt := hbound y hy
        have hi2e : i = db.nextId := hi2
        omega
      constructor
      · intro x hx
        rcases List.mem_append.mp hx with hm | hm
        · have hmm : x.id ∈ (db.updateAssignment a.id
              (fun y => { y with state := AState.done })).assignments.map
                Assignment.id := List.mem_map_of_mem _ hm
          rw [hid1] at hmm
          obtain ⟨y, hy, hyx⟩ := List.mem_map.mp hmm
          have hlt := hbound y hy
          show x.id < db.nextId + 1
          omega
        · simp only [List.mem_singleton] at hm
          rw [hm]
          exact Nat.lt_succ_self _
      · exact Nat.le_succ _
  · rename_i hla
    refine ⟨by rw [hid1]; exact hnodup, ?_, le_refl _⟩
    exact bound_of_map_id_eq _ _ _ hid1 hbound

theorem foldl_closeStep_preserves (rid : Nat) :
    ∀ (l : List Assignment) (dbc : DB) (x : Assignment),
    x ∈ dbc.assignments → (∀ b ∈ l, x.id ≠ b.id) →
    ∃ x2 ∈ (l.foldl (closeStep rid) dbc).assignments,
      x2.id = x.id ∧ x2.rfcId = x.rfcId ∧ x2.roleSlug = x.roleSlug ∧
      x2.person = x.person ∧ x2.state = x.state ∧
      (x2.comment = x.comment ∨
        x2.comment = "Re-created after blocked state cleared") := by
  intro l
  induction l with
  | nil =>
    intro dbc x hx _
    exact ⟨x, hx, rfl, rfl, rfl, rfl, rfl, Or.inl rfl⟩
  | cons a rest ih =>
    intro dbc x hx hne
    obtain ⟨x1, hx1, hid, hrfc, hrole, hper, hst, hcom⟩ :=
      closeStep_evolve rid dbc a x hx
    have hxa : ¬(x.id = a.id) := hne a (by simp)
    rw [if_neg hxa] at hst
    obtain ⟨x2, hx2, hid2, hrfc2, hrole2, hper2, hst2, hcom2⟩ :=
      ih (closeStep rid dbc a) x1 hx1
        (fun b hb => by rw [hid]; exact hne b (by simp [hb]))
    refine ⟨x2, hx2, hid2.trans hid, hrfc2.trans hrfc, hrole2.trans hrole,
      hper2.trans hper, hst2.trans hst, ?_⟩
    rcases hcom2 with h2 | h2
    · rcases hcom with h1 | h1
      · exact Or.inl (h2.trans h1)
      · exact Or.inr (h2.trans h1)
    · exact Or.inr h2

theorem pickLatest_mem :
    ∀ (l : List Assignment) (acc : Option (Assignment × Nat)) (r : Assignment × Nat),
    l.foldl pickLatest acc = some r → acc = some r ∨ r.1 ∈ l := by
  intro l
  induction l with
  | nil =>
    intro acc r h
    exact Or.inl h
  | cons x rest ih =>
    intro acc r h
    rw [List.foldl_cons] at h
    rcases ih (pickLatest acc x) r h with hacc | hmem
    · cases hld : latestHistDate x with
      | none =>
        simp only [pickLatest, hld] at hacc
        exact Or.inl hacc
      | some d =>
        simp only [pickLatest, hld] at hacc
        cases acc with
        | none =>
          dsimp only at hacc
          have hr1 : r.1 = x := by
            rw [← Option.some.inj hacc]
          exact Or.inr (hr1 ▸ List.mem_cons_self x rest)
        | some p0 =>
          dsimp only at hacc
          by_cases hgt : d > p0.2
          · rw [if_pos hgt] at hacc
            have hr1 : r.1 = x := by
              rw [← Option.some.inj hacc]
            exact Or.inr (hr1 ▸ List.mem_cons_self x rest)
          · rw [if_neg hgt] at hacc
            exact Or.inl hacc
    · exact Or.inr (List.mem_cons_of_mem x hmem)

theorem latest_mem (db : DB) (rid : Nat) (p : Option Nat) (la : Assignment)
    (h : latest_closed_for_hold db rid p = some la) :
    la ∈ db.assignments ∧ la.rfcId = rid ∧ la.state = AState.closedForHold ∧
      la.person = p := by
  unfold latest_closed_for_hold at h
  dsimp only at h
  cases hf : (db.assignments.filter (fun x =>
      x.rfcId == rid && x.state == AState.closedForHold && x.person == p)).foldl
        pickLatest none with
  | none =>
    rw [hf] at h
    exact Option.noConfusion h
  | some r =>
    rw [hf] at h
    have hr : r.1 = la := by
      simpa using h
    rcases pickLatest_mem _ _ _ hf with h0 | hm
    · exact Option.noConfusion h0
    · rw [hr] at hm
      have := List.mem_filter.mp hm
      obtain ⟨hmem, hpred⟩ := this
      simp only [Bool.and_eq_true, beq_iff_eq] at hpred
      exact ⟨hmem, hpred.1.1, hpred.1.2, hpred.2⟩

theorem close_fold_master (db0 : DB) (rid : Nat)
    (hncfh : ∀ x ∈ db0.assignments, x.state = AState.closedForHold →
      ¬(x.roleSlug = "blocked")) :
    ∀ (l : List Assignment) (dbc : DB),
    ((dbc.assignments.map Assignment.id).Nodup) →
    (∀ x ∈ dbc.assignments, x.id < dbc.nextId) →
    (∀ p, latest_closed_for_hold dbc rid p = latest_closed_for_hold db0 rid p) →
    (∀ x ∈ dbc.assignments, x.id ∉ db0.assignments.map Assignment.id →
      x.state = AState.assigned ∧
      x.comment = "Re-created after blocked state cleared" ∧
      ¬(x.roleSlug = "blocked") ∧ x.rfcId = rid ∧
      ∃ x0 ∈ db0.assignments, x0.rfcId = rid ∧ x0.roleSlug = "blocked" ∧
        x0.state.isActive = true ∧
        ∃ la, latest_closed_for_hold db0 rid x0.person = some la ∧
          x.roleSlug = la.roleSlug ∧ x.person = la.person) →
    (∀ b ∈ l, ∃ br ∈ dbc.assignments, br.id = b.id ∧ br.rfcId = rid ∧
      br.roleSlug = "blocked" ∧ br.person = b.person ∧ br.state.isActive = true) →
    (∀ b ∈ l, ∃ b0 ∈ db0.assignments, b0.rfcId = rid ∧ b0.roleSlug = "blocked" ∧
      b0.state.isActive = true ∧ b0.person = b.person) →
    ((l.map Assignment.id).Nodup) →
    (∀ b ∈ l, ∃ x2 ∈ (l.foldl (closeStep rid) dbc).assignments,
      x2.id = b.id ∧ x2.rfcId = rid ∧ x2.roleSlug = "blocked" ∧
      x2.person = b.person ∧ x2.state = AState.done)
    ∧ (∀ b ∈ l, ∀ la, latest_closed_for_hold db0 rid b.person = some la →
      ∃ y ∈ (l.foldl (closeStep rid) dbc).assignments, y.rfcId = rid ∧
        y.roleSlug = la.roleSlug ∧ y.person = la.person ∧
        y.state = AState.assigned ∧
        y.comment = "Re-created after blocked state cleared")
    ∧ (∀ y ∈ (l.foldl (closeStep rid) dbc).assignments,
        y.id ∉ db0.assignments.map Assignment.id →
        y.state = AState.assigned ∧
        y.comment = "Re-created after blocked state cleared" ∧
        ¬(y.roleSlug = "blocked") ∧ y.rfcId = rid ∧
        ∃ x0 ∈ db0.assignments, x0.rfcId = rid ∧ x0.roleSlug = "blocked" ∧
          x0.state.isActive = true ∧
          ∃ la, latest_closed_for_hold db0 rid x0.person = some la ∧
            y.roleSlug = la.roleSlug ∧ y.person = la.person) := by
  intro l
  induction l with
  | nil =>
    intro dbc _ _ _ hnew _ _ _
    exact ⟨fun b hb => absurd hb (List.not_mem_nil b),
      fun b hb => absurd hb (List.not_mem_nil b),
      fun y hy hid => hnew y hy hid⟩
  | cons a rest ih =>
    intro dbc hnodup hbound hlatest hnew hl hl0 hlnodup
    -- the stored row for the head element
    obtain ⟨ar, har, haid, harfc, harole, haper, hact⟩ := hl a (List.mem_cons_self a rest)
    -- every row with the head id is active
    have hact_dbc : ∀ x ∈ dbc.assignments, x.id = a.id → x.state.isActive = true := by
      intro x hx hxid
      have hxr : x = ar := List.inj_on_of_nodup_map hnodup hx har (hxid.trans haid.symm)
      rw [hxr]
      exact hact
    -- invariants after one step
    obtain ⟨hnodup1, hbound1, hmono1⟩ := closeStep_ids rid dbc a hnodup hbound
    have hstep_cfh := fun p => closeStep_cfh rid dbc a p hnodup hact_dbc
    have hlatest1 : ∀ p, latest_closed_for_hold (closeStep rid dbc a) rid p
        = latest_closed_for_hold db0 rid p := by
      intro p
      rw [latest_congr _ dbc rid p (hstep_cfh p)]
      exact hlatest p
    -- the intermediate state inside the step sees the same argmax
    have hmid : ∀ p, latest_closed_for_hold (dbc.updateAssignment a.id
        (fun x => { x with state := AState.done })) rid p
        = latest_closed_for_hold db0 rid p := by
      intro p
      rw [latest_congr _ dbc rid p (updateAssignment_cfh_done dbc a.id rid p hact_dbc)]
      exact hlatest p
    have hnew1 : ∀ y ∈ (closeStep rid dbc a).assignments,
        y.id ∉ db0.assignments.map Assignment.id →
        y.state = AState.assigned ∧
        y.comment = "Re-created after blocked state cleared" ∧
        ¬(y.roleSlug = "blocked") ∧ y.rfcId = rid ∧
        ∃ x0 ∈ db0.assignments, x0.rfcId = rid ∧ x0.roleSlug = "blocked" ∧
          x0.state.isActive = true ∧
          ∃ la, latest_closed_for_hold db0 rid x0.person = some la ∧
            y.roleSlug = la.roleSlug ∧ y.person = la.person := by
      intro y hy hid
      rcases closeStep_origin rid dbc a y hy with
        ⟨x, hx, hyid, hyrfc, hyrole, hyper, hyst, hycom⟩ |
        ⟨_, hyrfc, hst, hcom, la, hla, hrole, hper⟩
      · have hxnotin : x.id ∉ db0.assignments.map Assignment.id := by
          rw [← hyid]
          exact hid
        obtain ⟨hxa, hxc, hxr, hxrfc, x0, hx0, h0rfc, h0role, h0act, la, hla,
          hlarole, hlaper⟩ := hnew x hx hxnotin
        have hxnea : ¬(x.id = a.id) := by
          intro hxeq
          have : x = ar := List.inj_on_of_nodup_map hnodup hx har (hxeq.trans haid.symm)
          rw [this] at hxr
          exact hxr harole
        refine ⟨?_, ?_, ?_, hyrfc.trans hxrfc, x0, hx0, h0rfc, h0role, h0act,
          la, hla, hyrole.trans hlarole, hyper.trans hlaper⟩
        · rcases hyst with h | h
          · exact h.trans hxa
          · exact absurd h hxnea
        · rcases hycom with h | h
          · exact h.trans hxc
          · exact h
        · rw [hyrole]
          exact hxr
      · have hla0 : latest_closed_for_hold db0 rid a.person = some la := by
          rw [← hmid a.person]
          exact hla
        have hlamem := latest_mem db0 rid a.person la hla0
        obtain ⟨a0, ha0, ha0rfc, ha0role, ha0act, ha0per⟩ :=
          hl0 a (List.mem_cons_self a rest)
        refine ⟨hst, hcom, ?_, hyrfc, a0, ha0, ha0rfc, ha0role, ha0act,
          la, ?_, hrole, hper⟩
        · rw [hrole]
          exact hncfh la hlamem.1 hlamem.2.2.1
        · rw [ha0per]
          exact hla0
    have hl1 : ∀ b ∈ rest, ∃ br ∈ (closeStep rid dbc a).assignments,
        br.id = b.id ∧ br.rfcId = rid ∧ br.roleSlug = "blocked" ∧
        br.person = b.person ∧ br.state.isActive = true := by
      intro b hb
      obtain ⟨br, hbr, hbid, hbrfc, hbrole, hbper, hbact⟩ :=
        hl b (List.mem_cons_of_mem a hb)
      obtain ⟨x2, hx2, hxid, hxrfc, hxrole, hxper, hxst, _⟩ :=
        closeStep_evolve rid dbc a br hbr
      have hbna : ¬(br.id = a.id) := by
        intro heq
        have hbda : b.id = a.id := hbid.symm.trans heq
        have hcons := List.nodup_cons.mp hlnodup
        exact hcons.1 (hbda ▸ List.mem_map_of_mem Assignment.id hb)
      rw [if_neg hbna] at hxst
      exact ⟨x2, hx2, hxid.trans hbid, hxrfc.trans hbrfc, hxrole.trans hbrole,
        hxper.trans hbper, by rw [hxst]; exact hbact⟩
    have hrestnodup : (rest.map Assignment.id).Nodup := (List.nodup_cons.mp hlnodup).2
    obtain ⟨ihA, ihB, ihC⟩ := ih (closeStep rid dbc a) hnodup1 hbound1 hlatest1
      (fun y hy hid => hnew1 y hy hid) hl1
      (fun b hb => hl0 b (List.mem_cons_of_mem a hb)) hrestnodup
    have hanotrest : ∀ b ∈ rest, a.id ≠ b.id := by
      intro b hb heq
      exact (List.nodup_cons.mp hlnodup).1 (heq ▸ List.mem_map_of_mem Assignment.id hb)
    refine ⟨?_, ?_, ?_⟩
    · intro b hb
      rcases List.mem_cons.mp hb with rfl | hbr
      · -- the head: done in dbc1, preserved through the rest
        obtain ⟨x1, hx1, hxid, hxrfc, hxrole, hxper, hxst, _⟩ :=
          closeStep_evolve rid dbc b ar har
        rw [if_pos haid] at hxst
        obtain ⟨x2, hx2, h2id, h2rfc, h2role, h2per, h2st, _⟩ :=
          foldl_closeStep_preserves rid rest (closeStep rid dbc b) x1 hx1
            (fun c hc => by
              rw [hxid, haid]
              exact hanotrest c hc)
        rw [List.foldl_cons]
        exact ⟨x2, hx2, (h2id.trans hxid).trans haid, h2rfc.trans (hxrfc.trans harfc),
          h2role.trans (hxrole.trans harole), h2per.trans (hxper.trans haper),
          h2st.trans hxst⟩
      · rw [List.foldl_cons]
        exact ihA b hbr
    · intro b hb la hla
      rcases List.mem_cons.mp hb with rfl | hbr
      · -- the head: recreate in dbc1, preserve through the rest
        have hlam : latest_closed_for_hold (dbc.updateAssignment b.id
            (fun x => { x with state := AState.done })) rid b.person = some la := by
          rw [hmid b.person]
          exact hla
        obtain ⟨y, hy, hyrfc, hyrole, hyper, hyst, hycom⟩ :=
          closeStep_recreate rid dbc b la hlam
        have hlamem := latest_mem db0 rid b.person la hla
        have hyrb : ¬(y.roleSlug = "blocked") := by
          rw [hyrole]
          exact hncfh la hlamem.1 hlamem.2.2.1
        have hynotrest : ∀ c ∈ rest, y.id ≠ c.id := by
          intro c hc heq
          obtain ⟨cr, hcr, hcid, _, hcrole, _, _⟩ := hl1 c hc
          have : y = cr := List.inj_on_of_nodup_map hnodup1 hy hcr
            (heq.trans hcid.symm)
          rw [this] at hyrb
          exact hyrb hcrole
        obtain ⟨y2, hy2, _, h2rfc, h2role, h2per, h2st, h2com⟩ :=
          foldl_closeStep_preserves rid rest (closeStep rid dbc b) y hy hynotrest
        rw [List.foldl_cons]
        refine ⟨y2, hy2, h2rfc.trans hyrfc, h2role.trans hyrole,
          h2per.trans hyper, h2st.trans hyst, ?_⟩
        rcases h2com with h | h
        · exact h.trans hycom
        · exact h
      · rw [List.foldl_cons]
        exact ihB b hbr la hla
    · intro y hy hid
      rw [List.foldl_cons] at hy
      exact ihC y hy hid

theorem perm_insertDescById (a : Assignment) :
    ∀ (l : List Assignment), (insertDescById a l).Perm (a :: l) := by
  intro l
  induction l with
  | nil => exact List.Perm.refl _
  | cons b rest ih =>
    unfold insertDescById
    by_cases hc : b.id ≤ a.id
    · rw [if_pos hc]
    · rw [if_neg hc]
      exact (List.Perm.cons b ih).trans (List.Perm.swap a b rest)

theorem perm_sortDescById :
    ∀ (l : List Assignment), (sortDescById l).Perm l := by
  intro l
  induction l with
  | nil => exact List.Perm.refl _
  | cons b rest ih =>
    unfold sortDescById
    rw [List.foldr_cons]
    exact (perm_insertDescById b _).trans (List.Perm.cons b ih)

theorem mem_sortDescById (a : Assignment) (l : List Assignment) :
    a ∈ sortDescById l ↔ a ∈ l :=
  (perm_sortDescById l).mem_iff


open BlockingReason in
/-- Claim C7 (corrected): when the computed reason set is empty but an
active blocked assignment exists, reconcile sets every active blocked
assignment to done, recreates for each such person the role of the
closed_for_hold assignment with the most recent history date as an assigned
assignment whose comment is "Re-created after blocked state cleared"
(capitalised, unlike the lowercase string quoted in the claim), resolves
every unresolved blocking record of the document, and returns True.
Conversely every newly created row is such a recreation: it carries the
role and person of the most recent closed_for_hold assignment of some
active blocked person of the document, so nothing is recreated for a
person without a closed_for_hold assignment. -/
theorem unblock_transition (db : DB) (rid : Nat) (r : Rfc)
    (hnodup : (db.assignments.map Assignment.id).Nodup)
    (hbound : ∀ x ∈ db.assignments, x.id < db.nextId)
    (hncfh : ∀ x ∈ db.assignments, x.state = AState.closedForHold →
      ¬(x.roleSlug = "blocked"))
    (hfind : db.findRfc rid = some r)
    (hrs : get_block_reasons db r = Except.ok [])
    (hb : has_active_blocked_assignment db rid = true) :
    ∃ db1, apply_blocked_assignment_for_rfc db rid = Except.ok (db1, true)
      ∧ (∀ x ∈ db.assignments, x.rfcId = rid → x.roleSlug = "blocked" →
          x.state.isActive = true →
          ∃ x2 ∈ db1.assignments, x2.id = x.id ∧ x2.rfcId = rid ∧
            x2.roleSlug = "blocked" ∧ x2.person = x.person ∧
            x2.state = AState.done)
      ∧ (∀ x ∈ db.assignments, x.rfcId = rid → x.roleSlug = "blocked" →
          x.state.isActive = true →
          ∀ la, latest_closed_for_hold db rid x.person = some la →
            ∃ y ∈ db1.assignments, y.rfcId = rid ∧ y.roleSlug = la.roleSlug ∧
              y.person = la.person ∧ y.state = AState.assigned ∧
              y.comment = "Re-created after blocked state cleared")
      ∧ (∀ y ∈ db1.assignments, y.id ∉ db.assignments.map Assignment.id →
          y.state = AState.assigned ∧
          y.comment = "Re-created after blocked state cleared" ∧
          ¬(y.roleSlug = "blocked") ∧ y.rfcId = rid ∧
          ∃ x ∈ db.assignments, x.rfcId = rid ∧ x.roleSlug = "blocked" ∧
            x.state.isActive = true ∧
            ∃ la, latest_closed_for_hold db rid x.person = some la ∧
              y.roleSlug = la.roleSlug ∧ y.person = la.person)
      ∧ db1.blockingRecs = db.blockingRecs.map (fun b =>
          if b.rfcId == rid && b.resolved.isNone then
            { b with resolved := some db.now }
          else b) := by
  have hrid : r.id = rid := by
    have := List.find?_some hfind
    simpa using this
  subst hrid
  have hfiliff : ∀ x, x ∈ blockedQs db r.id ↔
      (x ∈ db.assignments ∧ x.rfcId = r.id ∧ x.roleSlug = "blocked" ∧
        x.state.isActive = true) := by
    intro x
    unfold blockedQs
    rw [mem_sortDescById, List.mem_filter]
    constructor
    · rintro ⟨hmem, hpred⟩
      simp only [Bool.and_eq_true, beq_iff_eq] at hpred
      exact ⟨hmem, hpred.1.1, hpred.1.2, hpred.2⟩
    · rintro ⟨hmem, h1, h2, h3⟩
      refine ⟨hmem, ?_⟩
      simp [h1, h2, h3]
  have hlnodup : ((blockedQs db r.id).map Assignment.id).Nodup := by
    have hperm := perm_sortDescById (db.assignments.filter (fun a =>
      a.rfcId == r.id && a.roleSlug == "blocked" && a.state.isActive))
    have hsub : (db.assignments.filter (fun a =>
        a.rfcId == r.id && a.roleSlug == "blocked" && a.state.isActive)).Sublist
        db.assignments := List.filter_sublist _
    have hfilnodup := List.Nodup.sublist (hsub.map Assignment.id) hnodup
    exact ((hperm.map Assignment.id).nodup_iff).mpr hfilnodup
  have hlne : (blockedQs db r.id).isEmpty = false := by
    unfold has_active_blocked_assignment at hb
    obtain ⟨x, hx, hpred⟩ := List.any_eq_true.mp hb
    simp only [Bool.and_eq_true, beq_iff_eq] at hpred
    have hxin : x ∈ blockedQs db r.id :=
      (hfiliff x).mpr ⟨hx, hpred.1.1, hpred.1.2, hpred.2⟩
    cases hcase : blockedQs db r.id with
    | nil =>
      rw [hcase] at hxin
      exact absurd hxin (List.not_mem_nil x)
    | cons c cs => rfl
  obtain ⟨mA, mB, mC⟩ := close_fold_master db r.id hncfh (blockedQs db r.id) db
    hnodup hbound (fun p => rfl)
    (fun x hx hid => absurd (List.mem_map_of_mem Assignment.id hx) hid)
    (fun b hbmem => by
      obtain ⟨hmem, h1, h2, h3⟩ := (hfiliff b).mp hbmem
      exact ⟨b, hmem, rfl, h1, h2, rfl, h3⟩)
    (fun b hbmem => by
      obtain ⟨hmem, h1, h2, h3⟩ := (hfiliff b).mp hbmem
      exact ⟨b, hmem, h1, h2, h3, rfl⟩)
    hlnodup
  have happly : apply_blocked_assignment_for_rfc db r.id =
      Except.ok ((close_blocked_assignments db r).1, true) := by
    simp only [apply_blocked_assignment_for_rfc, hfind, hrs]
    simp [hb]
  have hclose : (close_blocked_assignments db r).1 =
      { (blockedQs db r.id).foldl (closeStep r.id) db with
        blockingRecs := ((blockedQs db r.id).foldl (closeStep r.id)
            db).blockingRecs.map (fun b =>
          if b.rfcId == r.id && b.resolved.isNone then
            { b with resolved := some ((blockedQs db r.id).foldl (closeStep r.id)
                db).now }
          else b) } := by
    unfold close_blocked_assignments
    dsimp only
    rw [hlne]
    rfl
  rw [hclose] at happly
  refine ⟨_, happly, ?_, ?_, ?_, ?_⟩
  · intro x hx h1 h2 h3
    obtain ⟨x2, hx2, hprops⟩ := mA x ((hfiliff x).mpr ⟨hx, h1, h2, h3⟩)
    exact ⟨x2, hx2, hprops⟩
  · intro x hx h1 h2 h3 la hla
    exact mB x ((hfiliff x).mpr ⟨hx, h1, h2, h3⟩) la hla
  · intro y hy hid
    exact mC y hy hid
  · rw [foldl_closeStep_blockingRecs, foldl_closeStep_now]

theorem mem_setInsertMany (a : Nat) :
    ∀ (xs acc : List Nat), a ∈ setInsertMany acc xs ↔ a ∈ acc ∨ a ∈ xs := by
  intro xs
  induction xs with
  | nil =>
    intro acc
    simp [setInsertMany]
  | cons x rest ih =>
    intro acc
    have hstep : setInsertMany acc (x :: rest) = setInsertMany (setInsert acc x) rest := by
      unfold setInsertMany
      rw [List.foldl_cons]
    rw [hstep, ih (setInsert acc x), mem_setInsert]
    constructor
    · rintro ((h | h) | h)
      · exact Or.inr (by simp [h])
      · exact Or.inl h
      · exact Or.inr (by simp [h])
    · rintro (h | h)
      · exact Or.inl (Or.inr h)
      · rcases List.mem_cons.mp h with h | h
        · exact Or.inl (Or.inl h)
        · exact Or.inr h

theorem mem_collectIds {α : Type} (f : α → List Nat) (a : Nat) :
    ∀ (es : List α) (acc : List Nat),
    a ∈ collectIds f es acc ↔ a ∈ acc ∨ ∃ e ∈ es, a ∈ f e := by
  intro es
  induction es with
  | nil =>
    intro acc
    simp [collectIds]
  | cons e rest ih =>
    intro acc
    have hstep : collectIds f (e :: rest) acc
        = collectIds f rest (setInsertMany acc (f e)) := by
      unfold collectIds
      rw [List.foldl_cons]
    rw [hstep, ih (setInsertMany acc (f e)), mem_setInsertMany]
    constructor
    · rintro ((h | h) | ⟨e2, he2, hf⟩)
      · exact Or.inl h
      · exact Or.inr ⟨e, by simp, h⟩
      · exact Or.inr ⟨e2, by simp [he2], hf⟩
    · rintro (h | ⟨e2, he2, hf⟩)
      · exact Or.inl (Or.inl h)
      · rcases List.mem_cons.mp he2 with rfl | h2
        · exact Or.inl (Or.inr hf)
        · exact Or.inr ⟨e2, h2, hf⟩

theorem mem_rfcHistIds (t : Nat) (h : RfcHist) (a : Nat) :
    a ∈ rfcHistIds t h ↔
      (t < h.date ∧ h.dispositionSlug = "in_progress" ∧ a = h.rfcId) := by
  unfold rfcHistIds
  split
  · rename_i hc
    simp only [Bool.and_eq_true, decide_eq_true_eq, beq_iff_eq] at hc
    simp [hc.1, hc.2]
  · rename_i hc
    simp only [Bool.and_eq_true, decide_eq_true_eq, beq_iff_eq] at hc
    rw [Decidable.not_and_iff_or_not] at hc
    constructor
    · intro hmem
      exact absurd hmem (List.not_mem_nil a)
    · rintro ⟨h1, h2, _⟩
      rcases hc with hc | hc
      · exact absurd h1 hc
      · exact absurd h2 hc

theorem mem_refHistIds (ndb : NDB) (t : Nat) (h : RefHist) (a : Nat) :
    a ∈ refHistIds ndb t h ↔
      (t < h.date ∧ should_notify_queue (ndb.findDoc h.rfcId) = true ∧
        a = h.rfcId) := by
  unfold refHistIds
  split
  · rename_i hc
    simp only [Bool.and_eq_true, decide_eq_true_eq] at hc
    simp [hc.1, hc.2]
  · rename_i hc
    simp only [Bool.and_eq_true, decide_eq_true_eq] at hc
    rw [Decidable.not_and_iff_or_not] at hc
    constructor
    · intro hmem
      exact absurd hmem (List.not_mem_nil a)
    · rintro ⟨h1, h2, _⟩
      rcases hc with hc | hc
      · exact absurd h1 hc
      · exact absurd h2 hc

theorem mem_clusterHistIds (ndb : NDB) (t : Nat) (h : DocHist) (a : Nat) :
    a ∈ clusterHistIds ndb t h ↔
      (t < h.date ∧ ∃ d ∈ ndb.docs, d.draftId = some h.docId ∧
        d.dispositionSlug = "in_progress" ∧ a = d.id) := by
  unfold clusterHistIds
  split
  · rename_i hc
    simp only [decide_eq_true_eq] at hc
    simp only [List.mem_map, List.mem_filter, Bool.and_eq_true, beq_iff_eq]
    constructor
    · rintro ⟨d, ⟨hd, h1, h2⟩, h3⟩
      exact ⟨hc, d, hd, h1, h2, h3.symm⟩
    · rintro ⟨_, d, hd, h1, h2, h3⟩
      exact ⟨d, ⟨hd, h1, h2⟩, h3.symm⟩
  · rename_i hc
    simp only [decide_eq_true_eq] at hc
    constructor
    · intro hmem
      exact absurd hmem (List.not_mem_nil a)
    · rintro ⟨h1, _⟩
      exact absurd h1 hc

/-- Claim C5 (corrected): membership in the poller scan. Six of the seven
history scans filter on the current disposition of the referenced document,
but the RfcToBe.history scan passes the history snapshot itself to the
filter, so a document whose disposition has since left in_progress is still
collected from that log when the snapshot was in_progress. -/
theorem get_updated_rfcs_membership (ndb : NDB) (t : Nat) (i : Nat) :
    i ∈ get_updated_rfcs_since ndb t ↔
      (∃ h ∈ ndb.rfcHist, t < h.date ∧ h.dispositionSlug = "in_progress" ∧
        i = h.rfcId)
      ∨ (∃ h ∈ ndb.assignmentHist, t < h.date ∧
          should_notify_queue (ndb.findDoc h.rfcId) = true ∧ i = h.rfcId)
      ∨ (∃ h ∈ ndb.authorHist, t < h.date ∧
          should_notify_queue (ndb.findDoc h.rfcId) = true ∧ i = h.rfcId)
      ∨ (∃ h ∈ ndb.relatedHist, t < h.date ∧
          should_notify_queue (ndb.findDoc h.rfcId) = true ∧ i = h.rfcId)
      ∨ (∃ h ∈ ndb.emailHist, t < h.date ∧
          should_notify_queue (ndb.findDoc h.rfcId) = true ∧ i = h.rfcId)
      ∨ (∃ h ∈ ndb.clusterHist, t < h.date ∧ ∃ d ∈ ndb.docs,
          d.draftId = some h.docId ∧ d.dispositionSlug = "in_progress" ∧
          i = d.id)
      ∨ (∃ h ∈ ndb.subseriesHist, t < h.date ∧
          should_notify_queue (ndb.findDoc h.rfcId) = true ∧ i = h.rfcId) := by
  unfold get_updated_rfcs_since
  dsimp only
  rw [mem_collectIds, mem_collectIds, mem_collectIds, mem_collectIds,
    mem_collectIds, mem_collectIds, mem_collectIds]
  simp only [mem_rfcHistIds, mem_refHistIds, mem_clusterHistIds,
    List.not_mem_nil, false_or, or_assoc]

/-- Claim C8: when the POST to the notification sink fails,
process_rfctobe_changes_for_queue ends with the transport error propagated,
keeps last_run_at unchanged, and still resets is_running to false, so the
same window is rescanned on the next run. -/
theorem transport_failure_keeps_checkpoint (ndb : NDB) (tr : TaskRun)
    (htr : ndb.taskRun = some tr)
    (hrun : tr.is_running = false)
    (hquiet : get_recent_changes ndb (ndb.now - 60) = false)
    (hqueue : (get_updated_rfcs_since ndb tr.last_run_at).isEmpty = false)
    (hurl : (ndb.red_precompute_url == "") = false)
    (hfail : ndb.transport_ok = false) :
    process_rfctobe_changes_for_queue ndb =
      { db := { ndb with taskRun := some { tr with is_running := false } },
        sent := none, outcome := PollOutcome.transportError } := by
  simp only [process_rfctobe_changes_for_queue, notify_red_precompute, htr,
    hrun, hquiet, hqueue, hurl, hfail]
  simp

/-- Claim C10: with TRIGGER_RED_PRECOMPUTE_URL empty, notify_red_precompute
returns without sending and without raising, and the poller nonetheless
advances last_run_at to current_check_time, silently dropping every change
in the window from notification. -/
theorem empty_url_advances_checkpoint (ndb : NDB) (tr : TaskRun)
    (htr : ndb.taskRun = some tr)
    (hrun : tr.is_running = false)
    (hquiet : get_recent_changes ndb (ndb.now - 60) = false)
    (hurl : ndb.red_precompute_url = "") :
    (∀ ids, notify_red_precompute ndb ids = Except.ok none)
    ∧ process_rfctobe_changes_for_queue ndb =
      { db := { ndb with taskRun := some (TaskRun.mk ndb.now false) },
        sent := none, outcome := PollOutcome.completed } := by
  constructor
  · intro ids
    simp [notify_red_precompute, hurl]
  · cases hq : (get_updated_rfcs_since ndb tr.last_run_at).isEmpty <;>
      · simp only [process_rfctobe_changes_for_queue, notify_red_precompute,
          htr, hrun, hquiet, hq, hurl]
        simp

def ndbC3 : NDB :=
  { docs := [{ id := 1, dispositionSlug := "in_progress", draftId := none }],
    rfcHist := [{ rfcId := 1, dispositionSlug := "in_progress", date := 910 }],
    assignmentHist := [], authorHist := [], relatedHist := [], emailHist := [],
    clusterHist := [], subseriesHist := [],
    taskRun := some (TaskRun.mk 500 false), now := 1000,
    red_precompute_url := "http://sink", transport_ok := true }

/-- Claim C3 (code bug): the poller subtracts one minute from
current_check_time and passes the result to get_recent_changes, which
subtracts another minute, so the effective quiet window is two minutes.
Here every tracked entry is more than one minute old (so by the stated
one-minute rule the run should proceed to the scan-and-notify phase, and the
scan would find work), yet the run aborts without sending and without
advancing last_run_at. -/
theorem quiet_window_double_subtraction :
    get_recent_changes ndbC3 ndbC3.now = false
    ∧ ndbC3.rfcHist.all (fun h => decide (h.date + 60 <= ndbC3.now)) = true
    ∧ (get_updated_rfcs_since ndbC3 500).isEmpty = false
    ∧ process_rfctobe_changes_for_queue ndbC3 =
      { db := { ndbC3 with taskRun := some (TaskRun.mk 500 false) },
        sent := none, outcome := PollOutcome.skippedRecentChanges } := by
  refine ⟨rfl, rfl, rfl, rfl⟩

def ndbC5 : NDB :=
  { docs := [{ id := 1, dispositionSlug := "published", draftId := none }],
    rfcHist := [{ rfcId := 1, dispositionSlug := "in_progress", date := 100 }],
    assignmentHist := [], authorHist := [], relatedHist := [], emailHist := [],
    clusterHist := [], subseriesHist := [],
    taskRun := some (TaskRun.mk 50 false), now := 1000,
    red_precompute_url := "", transport_ok := true }

theorem snapshot_disposition_counterexample :
    get_updated_rfcs_since ndbC5 50 = [1]
    ∧ should_notify_queue (NDB.findDoc ndbC5 1) = false := ⟨rfl, rfl⟩

def rfcW4 : Rfc := Rfc.mk 7 "in_progress" [] [] []

def dbW4 : DB :=
  { rfcs := [rfcW4], assignments := [], relatedDocs := [], actionHolders := [],
    finalApprovals := [], blockingRecs := [], reasonSlugs := [],
    roleSlugs := ["blocked"], nextId := 1, now := 5 }

theorem reconcile_second_call_noop_witness :
    dbW4.findRfc 7 = some rfcW4
    ∧ get_block_reasons dbW4 rfcW4 = Except.ok []
    ∧ apply_blocked_assignment_for_rfc dbW4 7 = Except.ok (dbW4, false) :=
  ⟨rfl, rfl, reconcile_second_call_noop dbW4 7 rfcW4 [] rfl rfl rfl⟩

def rfcC6 : Rfc := Rfc.mk 1 "in_progress" [] [] []

def dbC6 : DB :=
  { rfcs := [rfcC6],
    assignments := [Assignment.mk 1 1 (some 3) "ref_checker" AState.assigned "" [0]],
    relatedDocs := [RelatedDoc.mk 1 "not-received-2g" none,
                    RelatedDoc.mk 1 "not-received-3g" none],
    actionHolders := [], finalApprovals := [], blockingRecs := [],
    reasonSlugs := [], roleSlugs := ["ref_checker"], nextId := 2, now := 50 }

open BlockingReason DocRelationshipName in
theorem gate1_tier_precedence_witness :
    is_active_or_pending_assignment dbC6 rfcC6 ["ref_checker", "formatting"] = true
    ∧ hasRelIn dbC6 rfcC6.id NOT_RECEIVED_RELATIONSHIP_SLUGS = true
    ∧ ∃ rs, get_block_reasons dbC6 rfcC6 = Except.ok rs
      ∧ (rs.filter (fun r => [REFERENCE_NOT_RECEIVED, REFERENCE_NOT_RECEIVED_2G,
            REFERENCE_NOT_RECEIVED_3G].contains r)).length = 1
      ∧ (hasRel dbC6 rfcC6.id NOT_RECEIVED_RELATIONSHIP_SLUG = true →
          REFERENCE_NOT_RECEIVED ∈ rs)
      ∧ (hasRel dbC6 rfcC6.id NOT_RECEIVED_RELATIONSHIP_SLUG = false →
          hasRel dbC6 rfcC6.id NOT_RECEIVED_2G_RELATIONSHIP_SLUG = true →
          REFERENCE_NOT_RECEIVED_2G ∈ rs)
      ∧ (hasRel dbC6 rfcC6.id NOT_RECEIVED_RELATIONSHIP_SLUG = false →
          hasRel dbC6 rfcC6.id NOT_RECEIVED_2G_RELATIONSHIP_SLUG = false →
          REFERENCE_NOT_RECEIVED_3G ∈ rs) :=
  ⟨rfl, rfl, gate1_tier_precedence dbC6 rfcC6 rfl rfl⟩

def rfcC7 : Rfc := Rfc.mk 1 "in_progress" [] [] []

def dbC7 : DB :=
  { rfcs := [rfcC7],
    assignments := [
      Assignment.mk 1 1 (some 9) "blocked" AState.inProgress "" [10],
      Assignment.mk 2 1 (some 9) "first_editor" AState.closedForHold
        "Closed due to blocked state" [20]],
    relatedDocs := [], actionHolders := [], finalApprovals := [],
    blockingRecs := [BlockingRec.mk 1 "label_stream_hold" 5 none],
    reasonSlugs := ["label_stream_hold"], roleSlugs := ["blocked", "first_editor"],
    nextId := 3, now := 200 }

theorem recreated_comment_counterexample :
    (apply_blocked_assignment_for_rfc dbC7 1).map (fun p =>
      ((p.1.assignments.filter
          (fun a => a.comment == "Re-created after blocked state cleared")).length,
       (p.1.assignments.filter
          (fun a => a.comment == "re-created after blocked state cleared")).length))
      = Except.ok (1, 0) := by
  refine rfl

theorem unblock_transition_witness :
    get_block_reasons dbC7 rfcC7 = Except.ok []
    ∧ has_active_blocked_assignment dbC7 1 = true
    ∧ ∃ db1, apply_blocked_assignment_for_rfc dbC7 1 = Except.ok (db1, true)
      ∧ (∀ x ∈ dbC7.assignments, x.rfcId = 1 → x.roleSlug = "blocked" →
          x.state.isActive = true →
          ∃ x2 ∈ db1.assignments, x2.id = x.id ∧ x2.rfcId = 1 ∧
            x2.roleSlug = "blocked" ∧ x2.person = x.person ∧
            x2.state = AState.done)
      ∧ (∀ x ∈ dbC7.assignments, x.rfcId = 1 → x.roleSlug = "blocked" →
          x.state.isActive = true →
          ∀ la, latest_closed_for_hold dbC7 1 x.person = some la →
            ∃ y ∈ db1.assignments, y.rfcId = 1 ∧ y.roleSlug = la.roleSlug ∧
              y.person = la.person ∧ y.state = AState.assigned ∧
              y.comment = "Re-created after blocked state cleared")
      ∧ (∀ y ∈ db1.assignments, y.id ∉ dbC7.assignments.map Assignment.id →
          y.state = AState.assigned ∧
          y.comment = "Re-created after blocked state cleared" ∧
          ¬(y.roleSlug = "blocked") ∧ y.rfcId = 1 ∧
          ∃ x ∈ dbC7.assignments, x.rfcId = 1 ∧ x.roleSlug = "blocked" ∧
            x.state.isActive = true ∧
            ∃ la, latest_closed_for_hold dbC7 1 x.person = some la ∧
              y.roleSlug = la.roleSlug ∧ y.person = la.person)
      ∧ db1.blockingRecs = dbC7.blockingRecs.map (fun b =>
          if b.rfcId == 1 && b.resolved.isNone then
            { b with resolved := some dbC7.now }
          else b) :=
  ⟨rfl, rfl, unblock_transition dbC7 1 rfcC7 (by decide) (by decide)
    (by decide) rfl rfl rfl⟩

def ndbC8 : NDB :=
  { docs := [{ id := 1, dispositionSlug := "in_progress", draftId := none }],
    rfcHist := [{ rfcId := 1, dispositionSlug := "in_progress", date := 600 }],
    assignmentHist := [], authorHist := [], relatedHist := [], emailHist := [],
    clusterHist := [], subseriesHist := [],
    taskRun := some (TaskRun.mk 500 false), now := 1000,
    red_precompute_url := "http://sink", transport_ok := false }

theorem transport_failure_keeps_checkpoint_witness :
    get_recent_changes ndbC8 (ndbC8.now - 60) = false
    ∧ (get_updated_rfcs_since ndbC8 500).isEmpty = false
    ∧ ndbC8.transport_ok = false
    ∧ process_rfctobe_changes_for_queue ndbC8 =
      { db := { ndbC8 with taskRun := some (TaskRun.mk 500 false) },
        sent := none, outcome := PollOutcome.transportError } :=
  ⟨rfl, rfl, rfl, transport_failure_keeps_checkpoint ndbC8
    (TaskRun.mk 500 false) rfl rfl rfl rfl rfl rfl⟩

def ndbC10 : NDB :=
  { docs := [{ id := 1, dispositionSlug := "in_progress", draftId := none }],
    rfcHist := [{ rfcId := 1, dispositionSlug := "in_progress", date := 600 }],
    assignmentHist := [], authorHist := [], relatedHist := [], emailHist := [],
    clusterHist := [], subseriesHist := [],
    taskRun := some (TaskRun.mk 500 false), now := 1000,
    red_precompute_url := "", transport_ok := true }

theorem empty_url_advances_checkpoint_witness :
    ndbC10.red_precompute_url = ""
    ∧ (get_updated_rfcs_since ndbC10 500).isEmpty = false
    ∧ (∀ ids, notify_red_precompute ndbC10 ids = Except.ok none)
    ∧ process_rfctobe_changes_for_queue ndbC10 =
      { db := { ndbC10 with taskRun := some (TaskRun.mk ndbC10.now false) },
        sent := none, outcome := PollOutcome.completed } := by
  refine ⟨rfl, rfl, ?_⟩
  exact empty_url_advances_checkpoint ndbC10 (TaskRun.mk 500 false)
    rfl rfl rfl rfl

/-- Claim C1: get_block_reasons implements the five-gate ordered cascade: it
equals the spec-level evaluator evaluate_spec (the first gate whose role set
has an active-or-pending assignment is the only gate evaluated, its
accumulated reasons returned immediately, even if empty), and when no gate
role set matches it returns the empty set. -/
theorem gate_cascade_matches_spec (db : DB) (rfc : Rfc) :
    get_block_reasons db rfc = evaluate_spec db rfc
    ∧ (first_matching_gate db rfc = none →
        get_block_reasons db rfc = Except.ok []) :=
  ⟨get_block_reasons_eq_spec db rfc, no_gate_empty db rfc⟩

end Purple
